import Mathlib

/-!
# OneTabImporter — verification of the normalization / merge / query / export core

A shallow embedding of the OneTabImporter CLI's core (src/parsers/leveldb.ts
JSON pipeline, src/utils/dates.ts, src/utils/files.ts, the search command and
the export command), together with proofs settling the frozen claims about it.

Modelling conventions:
* JavaScript numbers holding epoch milliseconds are modelled as `Int`
  (the source only ever stores integral millisecond values in them).
* The impure `nowIso()` is passed in as an explicit `now : String` parameter.
* `Array.prototype.sort` (stable since ES2019) is modelled by the stable
  `List.mergeSort`.
* Functions that `throw` are modelled in `Except String`.
* `JSON.parse` is modelled by an executable recursive-descent parser over a
  `JValue` tree; JSON numbers are modelled as integers (every number in the
  source's data format is an integral epoch-millisecond value).
* `new Date(s).getTime()` is modelled by `parseIsoToEpoch`, which accepts the
  full `YYYY-MM-DDTHH:MM:SS.mmmZ` ISO form that every timestamp produced by
  this program has; an unacceptable string models `NaN` as `none`.
-/

namespace OneTab

/-! ## Small JavaScript-flavoured helpers -/

/-- ASCII digit test (used to model the `\d` regex character class). -/
def isDig (c : Char) : Bool := 48 ≤ c.toNat && c.toNat ≤ 57

/-- Numeric value of a digit character. -/
def digVal (c : Char) : Nat := c.toNat - 48

/-- Boolean contiguous-substring test on character lists. -/
def listInfix (sub : List Char) : List Char → Bool
  | [] => sub.isEmpty
  | c :: cs => sub.isPrefixOf (c :: cs) || listInfix sub cs

/-- The `String.prototype.includes(sub)` modelled on the character lists. -/
def strIncludes (s sub : String) : Bool := listInfix sub.data s.data

/-- The `String.prototype.toLowerCase()` modelled on the character lists (ASCII,
which covers the hostnames and queries this program handles). -/
def strToLower (s : String) : String := String.mk (s.data.map Char.toLower)

/-- The `String.prototype.split('-')` modelled on character lists. -/
def splitOnDash : List Char → List (List Char)
  | [] => [[]]
  | c :: cs =>
    if c = '-' then [] :: splitOnDash cs
    else
      match splitOnDash cs with
      | [] => [[c]]
      | p :: ps => (c :: p) :: ps

/-- The `Number(str)` restricted to non-empty all-digit strings (the only inputs
the source feeds it after a regex guard); anything else is `none` (`NaN`). -/
def digitsToNat : List Char → Option Nat
  | [] => none
  | cs => if cs.all isDig then some (cs.foldl (fun a c => a * 10 + digVal c) 0) else none

/-- The `n.toString().padStart(2, '0')` for a non-negative number. -/
def pad2 (n : Int) : String :=
  let s := toString n
  if s.length = 1 then "0" ++ s else s

/-- Zero-pad to width 2 (for ISO rendering). -/
def pad2N (n : Nat) : String :=
  if n < 10 then "0" ++ toString n else toString n

/-- Zero-pad to width 3 (for ISO millisecond rendering). -/
def pad3N (n : Nat) : String :=
  if n < 10 then "00" ++ toString n else if n < 100 then "0" ++ toString n else toString n

/-- Zero-pad to width 4 (for ISO year rendering). -/
def pad4N (n : Nat) : String :=
  if n < 10 then "000" ++ toString n
  else if n < 100 then "00" ++ toString n
  else if n < 1000 then "0" ++ toString n
  else toString n

/-! ## Proleptic-Gregorian calendar arithmetic

These model the calendar behaviour of the JavaScript `Date` object (in UTC),
via the standard civil-from-days / days-from-civil algorithms.
All divisions are Lean's `Int` `/`, i.e. Euclidean division, which agrees with
floor division for the positive divisors used here. -/

/-- Days since 1970-01-01 of the civil date `y-m-d` (`m ∈ 1..12`). -/
def daysFromCivil (y m d : Int) : Int :=
  let yy := y - (if m ≤ 2 then 1 else 0)
  let era := yy / 400
  let yoe := yy - era * 400
  let mp := if m > 2 then m - 3 else m + 9
  let doy := (153 * mp + 2) / 5 + d - 1
  let doe := yoe * 365 + yoe / 4 - yoe / 100 + doy
  era * 146097 + doe - 719468

/-- Civil date `(y, m, d)` of a count of days since 1970-01-01. -/
def civilFromDays (z : Int) : Int × Int × Int :=
  let z := z + 719468
  let era := z / 146097
  let doe := z - era * 146097
  let yoe := (doe - doe / 1460 + doe / 36524 - doe / 146097) / 365
  let y := yoe + era * 400
  let doy := doe - (365 * yoe + yoe / 4 - yoe / 100)
  let mp := (5 * doy + 2) / 153
  let d := doy - (153 * mp + 2) / 5 + 1
  let m := if mp < 10 then mp + 3 else mp - 9
  (y + (if m ≤ 2 then 1 else 0), m, d)

/-- Gregorian leap-year test. -/
def isLeapYear (y : Nat) : Bool := (y % 4 = 0 && y % 100 != 0) || y % 400 = 0

/-- The `new Date(year, month, 0).getDate()` for a 1-based `month`: the number of
the last day of that month (the source uses it to find the end of a month).
Modelled for the months `1..12` that the claims range over. -/
def jsMonthEndDay (year month : Nat) : Nat :=
  if month = 2 then (if isLeapYear year then 29 else 28)
  else if month = 4 || month = 6 || month = 9 || month = 11 then 30
  else 31

/-- The `new Date(s).getTime()` for the full ISO-8601 UTC form
`YYYY-MM-DDTHH:MM:SS.mmmZ`; any other string models an invalid date (`NaN`). -/
def parseIsoToEpoch (s : String) : Option Int :=
  match s.data with
  | [y1, y2, y3, y4, '-', mo1, mo2, '-', d1, d2, 'T',
     h1, h2, ':', mi1, mi2, ':', s1, s2, '.', ms1, ms2, ms3, 'Z'] =>
    if ([y1, y2, y3, y4, mo1, mo2, d1, d2, h1, h2, mi1, mi2, s1, s2,
         ms1, ms2, ms3].all isDig) then
      let y := ((digVal y1 * 10 + digVal y2) * 10 + digVal y3) * 10 + digVal y4
      let mo := digVal mo1 * 10 + digVal mo2
      let d := digVal d1 * 10 + digVal d2
      let h := digVal h1 * 10 + digVal h2
      let mi := digVal mi1 * 10 + digVal mi2
      let sec := digVal s1 * 10 + digVal s2
      let ms := (digVal ms1 * 10 + digVal ms2) * 10 + digVal ms3
      if 1 ≤ mo && mo ≤ 12 && 1 ≤ d && d ≤ jsMonthEndDay y mo &&
         h ≤ 23 && mi ≤ 59 && sec ≤ 59 then
        some (daysFromCivil y mo d * 86400000 +
          (h * 3600000 + mi * 60000 + sec * 1000 + ms : Nat))
      else none
    else none
  | _ => none

/-! ## src/utils/dates.ts -/

/-- The `epochToIso` (src/utils/dates.ts): `new Date(epochMs).toISOString()`. -/
def epochToIso (epochMs : Int) : String :=
  let days := epochMs / 86400000
  let msOfDay := (epochMs % 86400000).toNat
  match civilFromDays days with
  | (y, m, d) =>
    pad4N y.toNat ++ "-" ++ pad2N m.toNat ++ "-" ++ pad2N d.toNat ++ "T" ++
    pad2N (msOfDay / 3600000) ++ ":" ++ pad2N (msOfDay / 60000 % 60) ++ ":" ++
    pad2N (msOfDay / 1000 % 60) ++ "." ++ pad3N (msOfDay % 1000) ++ "Z"

/-- The `x < y` on two JavaScript `getTime()` results; a comparison against `NaN`
(`none`) is `false`. -/
def jsLt : Option Int → Option Int → Bool
  | some x, some y => x < y
  | _, _ => false

/-- The `isDateInRange` (src/utils/dates.ts):
returns `false` when `date < from` or `date > to`, else `true`;
comparisons involving `NaN` are `false` and so never exclude. -/
def isDateInRange (dateIso : String) (fromIso toIso : Option String) : Bool :=
  let date := parseIsoToEpoch dateIso
  if (match fromIso with
      | some f => jsLt date (parseIsoToEpoch f)
      | none => false) then false
  else if (match toIso with
      | some t => jsLt (parseIsoToEpoch t) date
      | none => false) then false
  else true

/-- The regex test `/^\d{4}-\d{2}-\d{2}$/`. -/
def matchYMD (s : String) : Bool :=
  match s.data with
  | [a, b, c, d, '-', e, f, '-', g, h] => [a, b, c, d, e, f, g, h].all isDig
  | _ => false

/-- The regex test `/^\d{4}-\d{2}$/`. -/
def matchYM (s : String) : Bool :=
  match s.data with
  | [a, b, c, d, '-', e, f] => [a, b, c, d, e, f].all isDig
  | _ => false

/-- The regex test `/^\d{4}$/`. -/
def matchY (s : String) : Bool :=
  match s.data with
  | [a, b, c, d] => [a, b, c, d].all isDig
  | _ => false

/-- The `parseFlexibleDate` (src/utils/dates.ts). The final fallback branch of the
source is `new Date(dateStr).toISOString()`, which throws a `RangeError` on an
unparsable string; the model renders a parsable one and returns the input
unchanged otherwise (no claim exercises that branch with an unparsable
string). -/
def parseFlexibleDate (dateStr : String) (endOfPeriod : Bool) : String :=
  -- Already ISO format
  if dateStr.data.contains 'T' then dateStr
  -- YYYY-MM-DD
  else if matchYMD dateStr then
    if endOfPeriod then dateStr ++ "T23:59:59.999Z" else dateStr ++ "T00:00:00.000Z"
  -- YYYY-MM
  else if matchYM dateStr then
    if endOfPeriod then
      -- const [year, month] = dateStr.split('-').map(Number)
      match (splitOnDash dateStr.data).map digitsToNat with
      | [some year, some month] =>
        dateStr ++ "-" ++ pad2 (jsMonthEndDay year month) ++ "T23:59:59.999Z"
      | _ => dateStr  -- unreachable under the YYYY-MM shape guard
    else dateStr ++ "-01T00:00:00.000Z"
  -- YYYY
  else if matchY dateStr then
    if endOfPeriod then dateStr ++ "-12-31T23:59:59.999Z"
    else dateStr ++ "-01-01T00:00:00.000Z"
  -- Try parsing as-is
  else
    match parseIsoToEpoch dateStr with
    | some t => epochToIso t
    | none => dateStr

/-- Year of an epoch-millisecond instant (`date.getFullYear()` in UTC). -/
def yearOfEpoch (t : Int) : Int := (civilFromDays (t / 86400000)).1

/-- The `getYearWeek` (src/utils/dates.ts), on an epoch-millisecond instant.

The source computes
`pastDaysOfYear = (date - firstDayOfYear) / 86400000` (a fractional number of
days) and then `Math.ceil((pastDaysOfYear + firstDayOfYear.getDay() + 1) / 7)`.
Over the sub-millennium magnitudes involved the float computation is exact
enough that the ceiling equals the exact rational ceiling, which this model
computes with integer ceiling division. -/
def getYearWeekOfEpoch (t : Int) : String :=
  let year := yearOfEpoch t
  let jan1Days := daysFromCivil year 1 1
  let weekday := (jan1Days + 4) % 7  -- 1970-01-01 was a Thursday (getDay() = 4)
  let num := (t - jan1Days * 86400000) + (weekday + 1) * 86400000
  let weekNumber := (num + 604800000 - 1) / 604800000
  toString year ++ "-W" ++ pad2 weekNumber

/-- The `getYearWeek` (src/utils/dates.ts) on an ISO string; an unparsable string
(an invalid `Date`) yields the `NaN`-bearing text the source would print. -/
def getYearWeek (isoString : String) : String :=
  match parseIsoToEpoch isoString with
  | some t => getYearWeekOfEpoch t
  | none => "NaN-WNaN"

/-! ## Domain model (src/models/types.ts) -/

/-- The `SCHEMA_VERSION` (src/models/types.ts). -/
def SCHEMA_VERSION : String := "1.0.0"

/-- Normalized tab entry (`Tab`). -/
structure Tab where
  id : String
  url : String
  title : String
  domain : String
deriving DecidableEq

/-- Normalized tab group (`TabGroup`). -/
structure TabGroup where
  id : String
  tabs : List Tab
  createdAt : String
  createdAtEpoch : Int
  tabCount : Nat
  starred : Bool
  title : Option String
deriving DecidableEq

/-- The `MasterData['source']` provenance metadata. -/
structure SourceInfo where
  browser : String
  extensionId : String
  extractionMethod : String
deriving DecidableEq

/-- The `stats.dateRange`. -/
structure DateRange where
  earliest : String
  latest : String
deriving DecidableEq

/-- The `MasterData['stats']`. -/
structure Stats where
  totalGroups : Nat
  totalTabs : Nat
  dateRange : DateRange
deriving DecidableEq

/-- The persisted aggregate root (`MasterData`). -/
structure MasterData where
  schemaVersion : String
  exportedAt : String
  source : SourceInfo
  stats : Stats
  groups : List TabGroup
deriving DecidableEq

/-- Raw OneTab tab metadata (`OneTabTabMeta`). -/
structure OneTabTabMeta where
  id : String
  url : String
  title : String
deriving DecidableEq

/-- Raw OneTab group (`OneTabGroup`). `starred`/`title` are optional. -/
structure OneTabGroup where
  id : String
  tabsMeta : List OneTabTabMeta
  createDate : Int
  starred : Option Bool
  title : Option String
deriving DecidableEq

/-! ## JSON values and `JSON.parse` -/

/-- A JSON value. Numbers are modelled as integers: every number in the data
format handled by this program is an integral epoch-millisecond value. -/
inductive JValue where
  | null
  | bool (b : Bool)
  | num (n : Int)
  | str (s : String)
  | arr (elems : List JValue)
  | obj (fields : List (String × JValue))

/-- Skip JSON whitespace. -/
def skipWs : List Char → List Char
  | c :: cs => if c = ' ' || c = '\n' || c = '\t' || c = '\r' then skipWs cs else c :: cs
  | [] => []

/-- Hexadecimal digit value. -/
def hexVal (c : Char) : Option Nat :=
  if 48 ≤ c.toNat && c.toNat ≤ 57 then some (c.toNat - 48)
  else if 97 ≤ c.toNat && c.toNat ≤ 102 then some (c.toNat - 87)
  else if 65 ≤ c.toNat && c.toNat ≤ 70 then some (c.toNat - 55)
  else none

/-- Parse the body of a JSON string literal (after the opening quote),
handling the standard escapes. -/
def parseStrAux (fuel : Nat) (cs : List Char) (acc : List Char) :
    Option (String × List Char) :=
  match fuel with
  | 0 => none
  | fuel + 1 =>
    match cs with
    | [] => none
    | '"' :: rest => some (String.mk acc.reverse, rest)
    | '\\' :: e :: rest =>
      match e with
      | '"' => parseStrAux fuel rest ('"' :: acc)
      | '\\' => parseStrAux fuel rest ('\\' :: acc)
      | '/' => parseStrAux fuel rest ('/' :: acc)
      | 'b' => parseStrAux fuel rest ('\x08' :: acc)
      | 'f' => parseStrAux fuel rest ('\x0c' :: acc)
      | 'n' => parseStrAux fuel rest ('\n' :: acc)
      | 'r' => parseStrAux fuel rest ('\r' :: acc)
      | 't' => parseStrAux fuel rest ('\t' :: acc)
      | 'u' =>
        match rest with
        | a :: b :: c :: d :: rest2 =>
          match hexVal a, hexVal b, hexVal c, hexVal d with
          | some ha, some hb, some hc, some hd =>
            parseStrAux fuel rest2
              (Char.ofNat (((ha * 16 + hb) * 16 + hc) * 16 + hd) :: acc)
          | _, _, _, _ => none
        | _ => none
      | _ => none
    | c :: rest => parseStrAux fuel rest (c :: acc)

/-- Take a maximal run of decimal digits. -/
def takeDigits : List Char → List Char × List Char
  | [] => ([], [])
  | c :: cs =>
    if isDig c then
      match takeDigits cs with
      | (ds, r) => (c :: ds, r)
    else ([], c :: cs)

/-- Value of a digit run. -/
def natOfDigits (ds : List Char) : Nat := ds.foldl (fun a c => a * 10 + digVal c) 0

mutual

/-- Recursive-descent JSON value parser (fueled; the fuel passed by
`jsonParse` always suffices for its input). -/
def parseJ (fuel : Nat) (cs : List Char) : Option (JValue × List Char) :=
  match fuel with
  | 0 => none
  | fuel + 1 =>
    match skipWs cs with
    | 'n' :: 'u' :: 'l' :: 'l' :: rest => some (.null, rest)
    | 't' :: 'r' :: 'u' :: 'e' :: rest => some (.bool true, rest)
    | 'f' :: 'a' :: 'l' :: 's' :: 'e' :: rest => some (.bool false, rest)
    | '"' :: rest => (parseStrAux fuel rest []).map (fun p => (.str p.1, p.2))
    | '[' :: rest =>
      (match skipWs rest with
       | ']' :: rest2 => some (.arr [], rest2)
       | other => parseArrElems fuel other [])
    | '{' :: rest =>
      (match skipWs rest with
       | '}' :: rest2 => some (.obj [], rest2)
       | other => parseObjFields fuel other [])
    | '-' :: rest =>
      (match takeDigits rest with
       | ([], _) => none
       | (ds, r) => some (.num (-(Int.ofNat (natOfDigits ds))), r))
    | c :: rest =>
      if isDig c then
        match takeDigits (c :: rest) with
        | (ds, r) => some (.num (Int.ofNat (natOfDigits ds)), r)
      else none
    | [] => none

/-- Parse the remaining elements of a JSON array. -/
def parseArrElems (fuel : Nat) (cs : List Char) (acc : List JValue) :
    Option (JValue × List Char) :=
  match fuel with
  | 0 => none
  | fuel + 1 =>
    match parseJ fuel cs with
    | none => none
    | some (v, r) =>
      match skipWs r with
      | ',' :: r2 => parseArrElems fuel r2 (v :: acc)
      | ']' :: r2 => some (.arr (v :: acc).reverse, r2)
      | _ => none

/-- Parse the remaining fields of a JSON object. -/
def parseObjFields (fuel : Nat) (cs : List Char) (acc : List (String × JValue)) :
    Option (JValue × List Char) :=
  match fuel with
  | 0 => none
  | fuel + 1 =>
    match skipWs cs with
    | '"' :: rest =>
      match parseStrAux fuel rest [] with
      | none => none
      | some (key, r) =>
        match skipWs r with
        | ':' :: r2 =>
          match parseJ fuel r2 with
          | none => none
          | some (v, r3) =>
            match skipWs r3 with
            | ',' :: r4 => parseObjFields fuel r4 ((key, v) :: acc)
            | '}' :: r4 => some (.obj ((key, v) :: acc).reverse, r4)
            | _ => none
        | _ => none
    | _ => none

end

/-- The `JSON.parse` (returning `none` where the runtime would throw a
`SyntaxError`). -/
def jsonParse (s : String) : Option JValue :=
  match parseJ (s.data.length * 2 + 8) s.data with
  | some (v, rest) => if (skipWs rest).isEmpty then some v else none
  | none => none

/-- Property access `value[key]` (`undefined`, i.e. `none`, off an object). -/
def getField : JValue → String → Option JValue
  | .obj fs, k => fs.lookup k
  | _, _ => none

/-- The object spread `{ ...obj, key: newVal }` (replaces an existing key in
place, else appends). Only ever applied to objects in the source. -/
def setField (v : JValue) (k : String) (newVal : JValue) : JValue :=
  match v with
  | .obj fs =>
    .obj (if fs.any (fun p => p.1 == k) then
            fs.map (fun p => if p.1 == k then (k, newVal) else p)
          else fs ++ [(k, newVal)])
  | other => other

/-! ## src/parsers — JSON validation (`validateOneTabExport`) -/

/-- The `value && typeof value === 'object'`: a (truthy) object or array. -/
def isObjLike : JValue → Bool
  | .obj _ => true
  | .arr _ => true
  | _ => false

/-- Does `getField v k` hold a string? -/
def isStrField (v : JValue) (k : String) : Bool :=
  match getField v k with
  | some (.str _) => true
  | _ => false

/-- The `isValidTab` (src/parsers/leveldb.ts lines 441-449): string `id`, `url`,
`title`. -/
def isValidTab (v : JValue) : Bool :=
  isStrField v "id" && isStrField v "url" && isStrField v "title"

/-- The `isValidGroup` (src/parsers/leveldb.ts lines 454-463): string `id`,
numeric `createDate`, array `tabsMeta` of valid tabs. -/
def isValidGroup (v : JValue) : Bool :=
  isStrField v "id" &&
  (match getField v "createDate" with
   | some (.num _) => true
   | _ => false) &&
  (match getField v "tabsMeta" with
   | some (.arr ts) => ts.all isValidTab
   | _ => false)

/-- The `Array.isArray(state.tabGroups)` check inside the state branch of
`validateOneTabExport`: validated groups, fall-through (`none`), or failure. -/
def stateTabGroupsCheck (st : JValue) : Except String (Option (List JValue)) :=
  match getField st "tabGroups" with
  | some (.arr gs) =>
    if gs.all isValidGroup then .ok (some gs)
    else .error "Invalid OneTab export: tabGroups contains invalid entries"
  | _ => .ok none

/-- The body of the `if (obj.state && typeof obj.state === 'object')` branch
of `validateOneTabExport`: decode a double-encoded `state.tabGroups` string,
then look for the array. -/
def stateBranch (st : JValue) : Except String (Option (List JValue)) :=
  match getField st "tabGroups" with
  | some (.str s) =>
    match jsonParse s with
    | some v => stateTabGroupsCheck (setField st "tabGroups" v)
    | none => .error "Invalid OneTab export: tabGroups is a string but not valid JSON"
  | _ => stateTabGroupsCheck st

/-- The `Array.isArray(obj.tabGroups)` checks at top level. The source's
third branch (`'tabGroups' in obj && Array.isArray(obj.tabGroups)`) can never
fire after the second and is subsumed here; the final error names the two
accepted shapes. -/
def topTabGroupsCheck (obj : JValue) : Except String (List JValue) :=
  match getField obj "tabGroups" with
  | some (.arr gs) =>
    if gs.all isValidGroup then .ok gs
    else .error "Invalid OneTab export: tabGroups contains invalid entries"
  | _ =>
    .error ("Invalid OneTab export: could not find tabGroups array. " ++
      "Expected \x7b state: \x7b tabGroups: [...] \x7d \x7d or \x7b tabGroups: [...] \x7d")

/-- The top-level `typeof obj.tabGroups === 'string'` decode step followed by
the top-level array checks. -/
def afterState (obj : JValue) : Except String (List JValue) :=
  match getField obj "tabGroups" with
  | some (.str s) =>
    match jsonParse s with
    | some v => topTabGroupsCheck (setField obj "tabGroups" v)
    | none => .error "Invalid OneTab export: tabGroups is a string but not valid JSON"
  | _ => topTabGroupsCheck obj

/-- The `typeof obj.state === 'string'` decode step of
`validateOneTabExport`. -/
def decodeStateString (data : JValue) : Except String JValue :=
  match getField data "state" with
  | some (.str s) =>
    match jsonParse s with
    | some v => .ok (setField data "state" v)
    | none => .error "Invalid OneTab export: state is a string but not valid JSON"
  | _ => .ok data

/-- Everything of `validateOneTabExport` after the state-string decode. -/
def afterStateDecode (obj : JValue) : Except String (List JValue) :=
  match getField obj "state" with
  | some st =>
    if isObjLike st then
      match stateBranch st with
      | .error e => .error e
      | .ok (some gs) => .ok gs
      | .ok none => afterState obj
    else afterState obj
  | none => afterState obj

/-- The `validateOneTabExport` (src/parsers/leveldb.ts lines 468-535). -/
def validateOneTabExport (data : JValue) : Except String (List JValue) :=
  if !isObjLike data then .error "Invalid OneTab export: expected an object"
  else
    match decodeStateString data with
    | .error e => .error e
    | .ok obj => afterStateDecode obj

/-- The cast the source performs after `isValidGroup` succeeded
(`group as OneTabGroup`): read the validated fields out of the JSON value.
The fall-back values can only be produced on inputs `isValidTab` rejects. -/
def toOneTabTab (v : JValue) : OneTabTabMeta :=
  { id := (match getField v "id" with | some (.str s) => s | _ => "")
    url := (match getField v "url" with | some (.str s) => s | _ => "")
    title := (match getField v "title" with | some (.str s) => s | _ => "") }

/-- The cast of a validated group record to `OneTabGroup`. -/
def toOneTabGroup (v : JValue) : OneTabGroup :=
  { id := (match getField v "id" with | some (.str s) => s | _ => "")
    tabsMeta := (match getField v "tabsMeta" with
                 | some (.arr ts) => ts.map toOneTabTab
                 | _ => [])
    createDate := (match getField v "createDate" with | some (.num n) => n | _ => 0)
    starred := (match getField v "starred" with | some (.bool b) => some b | _ => none)
    title := (match getField v "title" with | some (.str s) => some s | _ => none) }

/-! ## src/utils/files.ts — domain extraction -/

/-- ASCII letter test. -/
def isAlpha (c : Char) : Bool :=
  (65 ≤ c.toNat && c.toNat ≤ 90) || (97 ≤ c.toNat && c.toNat ≤ 122)

/-- URL scheme continuation characters (`[A-Za-z0-9+.-]`). -/
def isSchemeChar (c : Char) : Bool :=
  isAlpha c || isDig c || c = '+' || c = '-' || c = '.'

/-- After the first scheme character: consume scheme characters up to a
literal `"://"`. -/
def schemeTail : List Char → Option (List Char)
  | ':' :: '/' :: '/' :: rest => some rest
  | c :: cs => if isSchemeChar c then schemeTail cs else none
  | [] => none

/-- Split a `scheme://` prefix off a URL, returning what follows. -/
def splitScheme : List Char → Option (List Char)
  | c :: cs => if isAlpha c then schemeTail cs else none
  | [] => none

/-- The (raw, case-preserved) host of `new URL(url)` for the
`scheme://authority…` URLs this program handles: the authority with userinfo
and port stripped. `none` models a thrown `TypeError` (invalid URL / empty
host). -/
def authorityHost (url : String) : Option String :=
  match splitScheme url.data with
  | none => none
  | some rest =>
    let auth := rest.takeWhile (fun c => !(c = '/' || c = '?' || c = '#'))
    let hp := (auth.reverse.takeWhile (fun c => !(c = '@'))).reverse
    let host := if hp.headD ' ' = '[' then hp.takeWhile (fun c => !(c = ']')) ++ [']']
                else hp.takeWhile (fun c => !(c = ':'))
    if host.isEmpty then none else some (String.mk host)

/-- The `new URL(url).hostname`: the host, lower-cased (as the WHATWG parser does
for the http-family URLs this program handles). -/
def urlHostname (url : String) : Option String :=
  (authorityHost url).map strToLower

/-- The first capture group of `/^(?:https?:\/\/)?([^:\/]+)/` applied at `cs`:
a maximal non-empty run of characters other than `:` and `/`. -/
def domainSpan (cs : List Char) : Option (List Char) :=
  let m := cs.takeWhile (fun c => !(c = ':' || c = '/'))
  if m.isEmpty then none else some m

/-- The regex fallback of `extractDomain`:
`url.match(/^(?:https?:\/\/)?([^:\/]+)/)?.[1] ?? 'unknown'`, including the
backtracking over the optional scheme prefix. -/
def regexDomainFallback (url : String) : String :=
  let withPre : Option (List Char) :=
    if url.data.take 8 = "https://".data then domainSpan (url.data.drop 8)
    else if url.data.take 7 = "http://".data then domainSpan (url.data.drop 7)
    else none
  match withPre with
  | some m => String.mk m
  | none =>
    match domainSpan url.data with
    | some m => String.mk m
    | none => "unknown"

/-- The `extractDomain` (src/utils/files.ts lines 135-144). -/
def extractDomain (url : String) : String :=
  match urlHostname url with
  | some h => h
  | none => regexDomainFallback url

/-! ## src/parsers — normalization and merge -/

/-- The `transformGroup` (src/parsers/leveldb.ts lines 540-559). -/
def transformGroup (group : OneTabGroup) : TabGroup :=
  let createdAt := epochToIso group.createDate
  let tabs : List Tab := group.tabsMeta.map (fun tab =>
    { id := tab.id
      url := tab.url
      -- tab.title || extractDomain(tab.url)  (empty string is falsy)
      title := if tab.title = "" then extractDomain tab.url else tab.title
      domain := extractDomain tab.url })
  { id := group.id
    tabs := tabs
    createdAt := createdAt
    createdAtEpoch := group.createDate
    tabCount := tabs.length
    starred := group.starred.getD false  -- group.starred ?? false
    title := group.title }

/-- The comparator `(a, b) => b.createdAtEpoch - a.createdAtEpoch` as a stable
sort order: `a` may stay before `b` iff the comparator is `≤ 0`. -/
def groupLe (a b : TabGroup) : Bool := decide (b.createdAtEpoch ≤ a.createdAtEpoch)

/-- Default (lexicographic) string comparison used by `dates.sort()`. -/
def strLe (a b : String) : Bool := decide (a ≤ b)

/-- The stats block computed identically in `parseOneTabJson` and
`mergeMasterData` (dates sorted ascending; first = earliest, last = latest;
`now` when there are no groups). -/
def computeStats (groups : List TabGroup) (now : String) : Stats :=
  let totalTabs := groups.foldl (fun sum g => sum + g.tabCount) 0
  let dates := (groups.map (fun g => g.createdAt)).mergeSort strLe
  { totalGroups := groups.length
    totalTabs := totalTabs
    dateRange := { earliest := dates.head?.getD now
                   latest := dates.getLast?.getD now } }

/-- The `parseOneTabJson` (src/parsers/leveldb.ts lines 564-596); `now` stands
for the impure `nowIso()`. -/
def parseOneTabJson (rawData : JValue) (source : SourceInfo) (now : String) :
    Except String MasterData :=
  match validateOneTabExport rawData with
  | .error e => .error e
  | .ok oneTabGroups =>
    let groups := (oneTabGroups.map toOneTabGroup).map transformGroup
    -- Sort by date (newest first)
    let groups := groups.mergeSort groupLe
    .ok { schemaVersion := SCHEMA_VERSION
          exportedAt := now
          source := source
          stats := computeStats groups now
          groups := groups }

/-- The `mergeMasterData` (src/parsers/leveldb.ts lines 601-632); `now` stands
for the impure `nowIso()`. -/
def mergeMasterData (existing newData : MasterData) (now : String) : MasterData :=
  let existingIds := existing.groups.map (fun g => g.id)
  -- Add new groups that don't exist
  let newGroups := newData.groups.filter (fun g => !existingIds.contains g.id)
  -- Sort by date (newest first)
  let allGroups := (existing.groups ++ newGroups).mergeSort groupLe
  { schemaVersion := SCHEMA_VERSION
    exportedAt := now
    source := newData.source  -- Use newer source info
    stats := computeStats allGroups now
    groups := allGroups }

/-! ## Search command (`matchesTab`, `searchData`) -/

/-- The predicate bundle (`SearchOptions`); `fromOpt`/`toOpt` model the
source's `from`/`to` fields (`from` is a keyword in Lean). -/
structure SearchOptions where
  query : Option String := none
  urlPattern : Option String := none
  titlePattern : Option String := none
  domain : Option String := none
  fromOpt : Option String := none
  toOpt : Option String := none

/-- The result of `matchesTab`; `isMatch` models the source's `matches` field
(`matches` is a Lean keyword). -/
structure TabMatch where
  isMatch : Bool
  inTitle : Bool
  inUrl : Bool
  inDomain : Bool
deriving DecidableEq

/-- The back-reference to the owning group inside a `SearchResult`. -/
structure SearchResultGroup where
  id : String
  createdAt : String
  title : Option String
deriving DecidableEq

/-- The `SearchResult.matches` flags. -/
structure MatchFlags where
  inTitle : Bool
  inUrl : Bool
  inDomain : Bool
deriving DecidableEq

/-- A search hit (`SearchResult`); `matchFlags` models the source's `matches`
field (`matches` is a Lean keyword). -/
structure SearchResult where
  tab : Tab
  group : SearchResultGroup
  matchFlags : MatchFlags
deriving DecidableEq

/-- The JavaScript regular-expression engine, abstracted: `new RegExp(p, 'i')`
either compiles `p` to a test function or throws (`none`). The search code is
parametric in it. -/
structure RegexEngine where
  compile : String → Option (String → Bool)

/-- The `matchesTab` (search command, lines 21-65). A pattern that fails to
compile leaves its flag untouched (the source logs a warning and moves on). -/
def matchesTab (re : RegexEngine) (tab : Tab) (options : SearchOptions) : TabMatch :=
  -- General query search
  let flags : Bool × Bool × Bool :=
    match options.query with
    | some q =>
      (strIncludes (strToLower tab.title) (strToLower q),
       strIncludes (strToLower tab.url) (strToLower q),
       strIncludes (strToLower tab.domain) (strToLower q))
    | none => (false, false, false)
  let inTitle := flags.1
  let inUrl := flags.2.1
  let inDomain := flags.2.2
  -- Title pattern (regex)
  let inTitle :=
    match options.titlePattern with
    | some p =>
      match re.compile p with
      | some test => inTitle || test tab.title
      | none => inTitle  -- invalid regex: warn, predicate never matches
    | none => inTitle
  -- URL pattern (regex)
  let inUrl :=
    match options.urlPattern with
    | some p =>
      match re.compile p with
      | some test => inUrl || test tab.url
      | none => inUrl  -- invalid regex: warn, predicate never matches
    | none => inUrl
  -- Domain filter (exact or partial match)
  let inDomain :=
    match options.domain with
    | some d => inDomain || strIncludes (strToLower tab.domain) (strToLower d)
    | none => inDomain
  { isMatch := inTitle || inUrl || inDomain
    inTitle := inTitle
    inUrl := inUrl
    inDomain := inDomain }

/-- The `searchData` (search command, lines 70-108). -/
def searchData (re : RegexEngine) (masterData : MasterData) (options : SearchOptions) :
    List SearchResult :=
  -- Parse date filters
  let fromDate := options.fromOpt.map (fun f => parseFlexibleDate f false)
  let toDate := options.toOpt.map (fun t => parseFlexibleDate t true)
  masterData.groups.flatMap (fun group =>
    -- Check date range filter
    if isDateInRange group.createdAt fromDate toDate then
      group.tabs.filterMap (fun tab =>
        let m := matchesTab re tab options
        if m.isMatch then
          some { tab := tab
                 group := { id := group.id
                            createdAt := group.createdAt
                            title := group.title }
                 matchFlags := { inTitle := m.inTitle
                                 inUrl := m.inUrl
                                 inDomain := m.inDomain } }
        else none)
    else [])

/-! ## Export command (`getOutputPath`, date filter) -/

/-- The `groupBy` granularity. -/
inductive Granularity where
  | month
  | week
  | day
deriving DecidableEq

/-- The `path.join` of two segments. -/
def joinPath (a b : String) : String := a ++ "/" ++ b

/-- The `periodKey.substring(0, 4)`. -/
def substr4 (s : String) : String := String.mk (s.data.take 4)

/-- The `periodKey.substring(0, 7)`. -/
def substr7 (s : String) : String := String.mk (s.data.take 7)

/-- The `getOutputPath` (export command, lines 120-135). -/
def getOutputPath (outputDir periodKey : String) (groupBy : Granularity) : String :=
  let year := substr4 periodKey
  match groupBy with
  | .month => joinPath (joinPath outputDir year) (periodKey ++ ".md")
  | .week => joinPath (joinPath outputDir year) (periodKey ++ ".md")
  | .day => joinPath (joinPath (joinPath outputDir year) (substr7 periodKey)) (periodKey ++ ".md")

/-- The date-range filter applied by `exportCommand` (lines 163-169) when
`from`/`to` are given. -/
def exportFilterGroups (groups : List TabGroup) (fromOpt toOpt : Option String) :
    List TabGroup :=
  let fromDate := fromOpt.map (fun f => parseFlexibleDate f false)
  let toDate := toOpt.map (fun t => parseFlexibleDate t true)
  groups.filter (fun group => isDateInRange group.createdAt fromDate toDate)

/-- The invariant of claim C3: stats derived from `groups`, `now` fallback for
an empty date range, groups sorted newest-first. -/
def statsInv (md : MasterData) (now : String) : Prop :=
  md.stats.totalGroups = md.groups.length ∧
  md.stats.totalTabs = (md.groups.map (fun g => g.tabCount)).sum ∧
  (md.groups = [] →
    md.stats.dateRange.earliest = now ∧ md.stats.dateRange.latest = now) ∧
  (md.groups ≠ [] →
    (md.stats.dateRange.earliest ∈ md.groups.map (fun g => g.createdAt) ∧
      ∀ d ∈ md.groups.map (fun g => g.createdAt), md.stats.dateRange.earliest ≤ d) ∧
    (md.stats.dateRange.latest ∈ md.groups.map (fun g => g.createdAt) ∧
      ∀ d ∈ md.groups.map (fun g => g.createdAt), d ≤ md.stats.dateRange.latest)) ∧
  md.groups.Pairwise (fun a b => b.createdAtEpoch ≤ a.createdAtEpoch)

/-- Concrete source metadata for witnesses. -/
def srcW : SourceInfo :=
  { browser := "edge", extensionId := "ext", extractionMethod := "import" }

/-- The `MasterData` produced by normalizing an empty export at time `"T0"`. -/
def mdEmptyW : MasterData :=
  { schemaVersion := "1.0.0"
    exportedAt := "T0"
    source := srcW
    stats := { totalGroups := 0, totalTabs := 0
               dateRange := { earliest := "T0", latest := "T0" } }
    groups := [] }

/-- A concrete regex engine for witnesses: every pattern fails to compile. -/
def reW10 : RegexEngine := { compile := fun _ => none }

/-- Concrete tab for witnesses. -/
def tabW10 : Tab :=
  { id := "t1", url := "https://github.com/x", title := "X", domain := "github.com" }

/-- Concrete group for witnesses. -/
def groupW10 : TabGroup :=
  { id := "a", tabs := [tabW10], createdAt := "2025-06-15T12:00:00.000Z",
    createdAtEpoch := 1749988800000, tabCount := 1, starred := false, title := none }

/-- Concrete master record for witnesses. -/
def mdW10 : MasterData :=
  { schemaVersion := "1.0.0"
    exportedAt := "T0"
    source := { browser := "edge", extensionId := "e", extractionMethod := "import" }
    stats := { totalGroups := 1, totalTabs := 1
               dateRange := { earliest := "2025-06-15T12:00:00.000Z"
                              latest := "2025-06-15T12:00:00.000Z" } }
    groups := [groupW10] }

/-- A concrete regex engine for witnesses: the pattern `"["` fails to compile,
any other pattern compiles to a substring test. -/
def reW8 : RegexEngine :=
  { compile := fun p => if p = "[" then none else some (fun s => strIncludes s p) }

/-- Fractional days since 1 January of the year containing `t` (the claim's
`dayOfYear`; exactly the source's `pastDaysOfYear`). -/
def dayOfYearQ (t : Int) : ℚ :=
  ((t - daysFromCivil (yearOfEpoch t) 1 1 * 86400000 : Int) : ℚ) / 86400000

/-- Weekday (0 = Sunday) of 1 January of the year containing `t`
(`firstDayOfYear.getDay()`). -/
def jan1Weekday (t : Int) : Int := (daysFromCivil (yearOfEpoch t) 1 1 + 4) % 7

/-- The claim's week formula `ceil((dayOfYear + weekdayOfJan1 + 1) / 7)`, with
exact rational arithmetic. -/
def specWeekNumber (t : Int) : Int := ⌈(dayOfYearQ t + jan1Weekday t + 1) / 7⌉

/-- A malformed group record (numeric `id`) used by the C5 witness. -/
def badGroupW : JValue := .obj [("id", .num 7)]

/-! ## Theorems -/

/-! ## Order facts for the sort comparators -/

theorem groupLe_trans : ∀ (a b c : TabGroup), groupLe a b → groupLe b c → groupLe a c := by
  intro a b c
  simp only [groupLe, decide_eq_true_eq]
  omega

theorem groupLe_total : ∀ (a b : TabGroup), groupLe a b || groupLe b a := by
  intro a b
  simp only [groupLe, Bool.or_eq_true, decide_eq_true_eq]
  omega

theorem strLe_trans : ∀ (a b c : String), strLe a b → strLe b c → strLe a c := by
  intro a b c
  simp only [strLe, decide_eq_true_eq]
  exact le_trans

theorem strLe_total : ∀ (a b : String), strLe a b || strLe b a := by
  intro a b
  simp only [strLe, Bool.or_eq_true, decide_eq_true_eq]
  exact le_total a b

/-- Membership in the merged groups list. -/
theorem mem_mergeMasterData_groups (existing newData : MasterData) (now : String)
    (g : TabGroup) :
    g ∈ (mergeMasterData existing newData now).groups ↔
      g ∈ existing.groups ∨
        (g ∈ newData.groups ∧
          ∀ g2 ∈ existing.groups, g2.id ≠ g.id) := by
  simp only [mergeMasterData, List.mem_mergeSort, List.mem_append, List.mem_filter]
  constructor
  · rintro (h | ⟨h1, h2⟩)
    · exact Or.inl h
    · refine Or.inr ⟨h1, ?_⟩
      intro g2 hg2 heq
      simp only [Bool.not_eq_true', List.contains, List.elem_eq_mem,
        decide_eq_false_iff_not, List.mem_map, not_exists] at h2
      exact h2 g2 ⟨hg2, heq⟩
  · rintro (h | ⟨h1, h2⟩)
    · exact Or.inl h
    · refine Or.inr ⟨h1, ?_⟩
      simp only [Bool.not_eq_true', List.contains, List.elem_eq_mem,
        decide_eq_false_iff_not, List.mem_map, not_exists]
      rintro g2 ⟨hg2, heq⟩
      exact h2 g2 hg2 heq

/-- The `mergeMasterData` unfolded (the two `let`s substituted). -/
theorem mergeMasterData_def (e n : MasterData) (now : String) :
    mergeMasterData e n now =
      { schemaVersion := SCHEMA_VERSION
        exportedAt := now
        source := n.source
        stats := computeStats
          ((e.groups ++ n.groups.filter
            (fun g => !(e.groups.map (fun g => g.id)).contains g.id)).mergeSort groupLe) now
        groups := (e.groups ++ n.groups.filter
            (fun g => !(e.groups.map (fun g => g.id)).contains g.id)).mergeSort groupLe } := rfl

theorem mergeMasterData_groups_sorted (M N : MasterData) (now : String) :
    (mergeMasterData M N now).groups.Pairwise (fun a b => groupLe a b = true) := by
  simp only [mergeMasterData]
  exact List.sorted_mergeSort groupLe_trans groupLe_total _

theorem merge_self_aux (M N : MasterData) (now : String) :
    mergeMasterData (mergeMasterData M N now) N now = mergeMasterData M N now := by
  have hsorted := mergeMasterData_groups_sorted M N now
  have hids : ∀ g ∈ N.groups,
      ((mergeMasterData M N now).groups.map (fun g => g.id)).contains g.id = true := by
    intro g hg
    simp only [List.contains, List.elem_eq_mem, decide_eq_true_eq, List.mem_map]
    by_cases hmem : ∃ g2 ∈ M.groups, g2.id = g.id
    · obtain ⟨g2, hg2, he⟩ := hmem
      exact ⟨g2, (mem_mergeMasterData_groups M N now g2).mpr (Or.inl hg2), he⟩
    · push_neg at hmem
      exact ⟨g, (mem_mergeMasterData_groups M N now g).mpr (Or.inr ⟨hg, hmem⟩), rfl⟩
  have hfil : (N.groups.filter
      (fun g => !((mergeMasterData M N now).groups.map (fun g => g.id)).contains g.id)) = [] := by
    rw [List.filter_eq_nil_iff]
    intro g hg
    rw [hids g hg]
    simp
  rw [mergeMasterData_def (mergeMasterData M N now) N now, hfil, List.append_nil,
    List.mergeSort_of_sorted hsorted]
  rfl

theorem foldl_tabCount (l : List TabGroup) (n : Nat) :
    l.foldl (fun sum g => sum + g.tabCount) n = n + (l.map (fun g => g.tabCount)).sum := by
  induction l generalizing n with
  | nil => simp
  | cons a t ih => simp [ih]; omega

theorem head_le_of_sorted {l : List String} (h : l.Pairwise (· ≤ ·)) (hne : l ≠ []) :
    ∀ d ∈ l, l.head hne ≤ d := by
  cases l with
  | nil => exact absurd rfl hne
  | cons a t =>
    rw [List.pairwise_cons] at h
    intro d hd
    rcases List.mem_cons.mp hd with rfl | hdt
    · exact le_refl _
    · exact h.1 d hdt

theorem le_getLast_of_sorted :
    ∀ (l : List String), l.Pairwise (· ≤ ·) → ∀ (hne : l ≠ []) (d : String), d ∈ l →
      d ≤ l.getLast hne := by
  intro l
  induction l with
  | nil => intro _ hne; exact absurd rfl hne
  | cons a t ih =>
    intro h hne d hd
    rw [List.pairwise_cons] at h
    cases t with
    | nil =>
      rcases List.mem_cons.mp hd with rfl | hdt
      · simp [List.getLast]
      · simp at hdt
    | cons b t2 =>
      have htne : (b :: t2) ≠ [] := by simp
      rw [List.getLast_cons htne]
      rcases List.mem_cons.mp hd with rfl | hdt
      · exact h.1 _ (List.getLast_mem htne)
      · exact ih h.2 htne d hdt

theorem statsInv_build (sv ex : String) (src : SourceInfo) (gs0 : List TabGroup)
    (now : String) :
    statsInv { schemaVersion := sv, exportedAt := ex, source := src,
               stats := computeStats (gs0.mergeSort groupLe) now,
               groups := gs0.mergeSort groupLe } now := by
  have hsorted : (gs0.mergeSort groupLe).Pairwise (fun a b => groupLe a b = true) :=
    List.sorted_mergeSort groupLe_trans groupLe_total _
  refine ⟨rfl, ?_, ?_, ?_, ?_⟩
  · show (gs0.mergeSort groupLe).foldl (fun sum g => sum + g.tabCount) 0 = _
    simpa using foldl_tabCount (gs0.mergeSort groupLe) 0
  · intro h0
    have h : gs0.mergeSort groupLe = [] := h0
    show (((gs0.mergeSort groupLe).map (fun g => g.createdAt)).mergeSort strLe).head?.getD now = now ∧
      (((gs0.mergeSort groupLe).map (fun g => g.createdAt)).mergeSort strLe).getLast?.getD now = now
    rw [h]
    simp
  · intro hne0
    have hne : gs0.mergeSort groupLe ≠ [] := hne0
    have hperm : List.Perm (((gs0.mergeSort groupLe).map (fun g => g.createdAt)).mergeSort strLe)
        ((gs0.mergeSort groupLe).map (fun g => g.createdAt)) := List.mergeSort_perm _ _
    have hsd : (((gs0.mergeSort groupLe).map (fun g => g.createdAt)).mergeSort strLe).Pairwise
        (fun a b => a ≤ b) :=
      (List.sorted_mergeSort strLe_trans strLe_total _).imp
        (fun hab => by simpa [strLe] using hab)
    have hne2 : ((gs0.mergeSort groupLe).map (fun g => g.createdAt)).mergeSort strLe ≠ [] := by
      intro hnil
      have hlen := hperm.length_eq
      rw [hnil] at hlen
      simp only [List.length_nil, List.length_map] at hlen
      exact hne (List.eq_nil_of_length_eq_zero hlen.symm)
    refine ⟨⟨?_, ?_⟩, ?_, ?_⟩
    · show (((gs0.mergeSort groupLe).map (fun g => g.createdAt)).mergeSort strLe).head?.getD now ∈ _
      rw [List.head?_eq_head hne2, Option.getD_some]
      exact hperm.mem_iff.mp (List.head_mem hne2)
    · intro d hd
      show (((gs0.mergeSort groupLe).map (fun g => g.createdAt)).mergeSort strLe).head?.getD now ≤ d
      rw [List.head?_eq_head hne2, Option.getD_some]
      exact head_le_of_sorted hsd hne2 d (hperm.mem_iff.mpr hd)
    · show (((gs0.mergeSort groupLe).map (fun g => g.createdAt)).mergeSort strLe).getLast?.getD now ∈ _
      rw [List.getLast?_eq_getLast _ hne2, Option.getD_some]
      exact hperm.mem_iff.mp (List.getLast_mem hne2)
    · intro d hd
      show d ≤ (((gs0.mergeSort groupLe).map (fun g => g.createdAt)).mergeSort strLe).getLast?.getD now
      rw [List.getLast?_eq_getLast _ hne2, Option.getD_some]
      exact le_getLast_of_sorted _ hsd hne2 d (hperm.mem_iff.mpr hd)
  · exact hsorted.imp (fun hab => by simpa [groupLe] using hab)

/-- Claim C1. For every pair of `MasterData` values, `mergeMasterData` keeps each
existing group unchanged and drops every incoming group whose `id` already
occurs among the existing groups: a group value is in the merged output
exactly when it is one of the existing groups, or an incoming group none of
whose id-mates exist yet — so an incoming copy never overwrites or updates an
already-present group even when its content differs. -/
theorem claim_C1_merge_union (existing incoming : MasterData) (now : String)
    (g : TabGroup) :
    g ∈ (mergeMasterData existing incoming now).groups ↔
      g ∈ existing.groups ∨
        (g ∈ incoming.groups ∧ ∀ g2 ∈ existing.groups, g2.id ≠ g.id) :=
  mem_mergeMasterData_groups existing incoming now g

/-- Claim C2. Merge is idempotent: re-merging the same incoming batch against the
already-merged state adds zero new groups and yields identical output:
`merge(merge(M, N), N) = merge(M, N)`. -/
theorem claim_C2_merge_idempotent (M N : MasterData) (now : String) :
    mergeMasterData (mergeMasterData M N now) N now = mergeMasterData M N now :=
  merge_self_aux M N now

/-- Claim C3. After every successful normalize (`parseOneTabJson`) and after
every merge (`mergeMasterData`), the returned `MasterData` satisfies
`stats.totalGroups = groups.length`, `stats.totalTabs = sum of tabCount`,
`stats.dateRange.earliest`/`latest` are the minimum/maximum of the groups'
`createdAt` (defaulting to the current time when there are zero groups), and
`groups` is sorted descending by `createdAtEpoch`. -/
theorem claim_C3_stats_invariant :
    (∀ (raw : JValue) (source : SourceInfo) (now : String) (md : MasterData),
        parseOneTabJson raw source now = .ok md → statsInv md now) ∧
    (∀ (existing newData : MasterData) (now : String),
        statsInv (mergeMasterData existing newData now) now) := by
  constructor
  · intro raw source now md h
    unfold parseOneTabJson at h
    cases hv : validateOneTabExport raw with
    | error e => rw [hv] at h; exact absurd h (by simp)
    | ok gs =>
      rw [hv] at h
      simp only [Except.ok.injEq] at h
      subst h
      exact statsInv_build _ _ _ _ _
  · intro existing newData now
    exact statsInv_build SCHEMA_VERSION now newData.source
      (existing.groups ++ newData.groups.filter
        (fun g => !(existing.groups.map (fun g => g.id)).contains g.id)) now

theorem claim_C3_stats_invariant_witness :
    statsInv mdEmptyW "T0" ∧ statsInv (mergeMasterData mdEmptyW mdEmptyW "T1") "T1" :=
  ⟨claim_C3_stats_invariant.1 (.obj [("tabGroups", .arr [])]) srcW "T0" mdEmptyW
      (by
        have hv : validateOneTabExport (.obj [("tabGroups", .arr [])]) = .ok [] := rfl
        unfold parseOneTabJson
        rw [hv]
        simp [computeStats, mdEmptyW, srcW, SCHEMA_VERSION]),
   claim_C3_stats_invariant.2 mdEmptyW mdEmptyW "T1"⟩

theorem ne_T_of_isDig {c : Char} (h : isDig c = true) : ¬('T' = c) := by
  intro he
  rw [← he] at h
  exact absurd h (by decide)

/-- Claim C6. `parseFlexibleDate` expands a flexible date string to its
start-of-period instant as a `from` bound and to its end-of-period instant
(23:59:59.999 of the last day of the year/month/day) as a `to` bound; in
consequence the date filter includes `2025-06-15T12:00:00.000Z` for
`from="2025-06"` and `to="2025-06"` but excludes it for `from="2025-07"` and
`to="2025-05"`. -/
theorem claim_C6_flexible_dates :
    (∀ s : String, matchYMD s = true →
      parseFlexibleDate s false = s ++ "T00:00:00.000Z" ∧
      parseFlexibleDate s true = s ++ "T23:59:59.999Z") ∧
    (∀ s : String, matchYM s = true →
      parseFlexibleDate s false = s ++ "-01T00:00:00.000Z" ∧
      ∀ y m : Nat, (splitOnDash s.data).map digitsToNat = [some y, some m] →
        parseFlexibleDate s true =
          s ++ "-" ++ pad2 (jsMonthEndDay y m) ++ "T23:59:59.999Z") ∧
    (∀ s : String, matchY s = true →
      parseFlexibleDate s false = s ++ "-01-01T00:00:00.000Z" ∧
      parseFlexibleDate s true = s ++ "-12-31T23:59:59.999Z") ∧
    (isDateInRange "2025-06-15T12:00:00.000Z"
        (some (parseFlexibleDate "2025-06" false)) none = true ∧
      isDateInRange "2025-06-15T12:00:00.000Z"
        (some (parseFlexibleDate "2025-07" false)) none = false ∧
      isDateInRange "2025-06-15T12:00:00.000Z"
        none (some (parseFlexibleDate "2025-06" true)) = true ∧
      isDateInRange "2025-06-15T12:00:00.000Z"
        none (some (parseFlexibleDate "2025-05" true)) = false) := by
  refine ⟨?_, ?_, ?_, by decide, by decide, by decide, by decide⟩
  · intro s hs
    obtain ⟨l⟩ := s
    simp only [matchYMD] at hs
    split at hs
    · rename_i a b c d e f g h
      simp only [List.all_cons, List.all_nil, Bool.and_eq_true, and_true] at hs
      obtain ⟨h1, h2, h3, h4, h5, h6, h7, h8⟩ := hs
      have hT : ¬((String.mk [a, b, c, d, '-', e, f, '-', g, h]).data.contains 'T' = true) := by
        simp only [List.contains_cons, List.contains_nil, Bool.or_eq_true, beq_iff_eq]
        push_neg
        exact ⟨ne_T_of_isDig h1, ne_T_of_isDig h2, ne_T_of_isDig h3, ne_T_of_isDig h4,
          by decide, ne_T_of_isDig h5, ne_T_of_isDig h6, by decide,
          ne_T_of_isDig h7, ne_T_of_isDig h8, by simp⟩
      have hymd : matchYMD (String.mk [a, b, c, d, '-', e, f, '-', g, h]) = true := by
        simp only [matchYMD]
        simp [h1, h2, h3, h4, h5, h6, h7, h8]
      constructor
      · rw [parseFlexibleDate, if_neg hT, if_pos hymd]
        simp
      · rw [parseFlexibleDate, if_neg hT, if_pos hymd]
        simp
    · exact absurd hs (by simp)
  · intro s hs
    obtain ⟨l⟩ := s
    simp only [matchYM] at hs
    split at hs
    · rename_i a b c d e f
      simp only [List.all_cons, List.all_nil, Bool.and_eq_true, and_true] at hs
      obtain ⟨h1, h2, h3, h4, h5, h6⟩ := hs
      have hT : ¬((String.mk [a, b, c, d, '-', e, f]).data.contains 'T' = true) := by
        simp only [List.contains_cons, List.contains_nil, Bool.or_eq_true, beq_iff_eq]
        push_neg
        exact ⟨ne_T_of_isDig h1, ne_T_of_isDig h2, ne_T_of_isDig h3, ne_T_of_isDig h4,
          by decide, ne_T_of_isDig h5, ne_T_of_isDig h6, by simp⟩
      have hymd : matchYMD (String.mk [a, b, c, d, '-', e, f]) = false := by
        simp only [matchYMD]
      have hym : matchYM (String.mk [a, b, c, d, '-', e, f]) = true := by
        simp only [matchYM]
        simp [h1, h2, h3, h4, h5, h6]
      constructor
      · rw [parseFlexibleDate, if_neg hT, if_neg (by rw [hymd]; simp), if_pos hym]
        simp
      · intro y m hsplit
        rw [parseFlexibleDate, if_neg hT, if_neg (by rw [hymd]; simp), if_pos hym]
        simp only [if_pos rfl]
        rw [hsplit]
        simp
    · exact absurd hs (by simp)
  · intro s hs
    obtain ⟨l⟩ := s
    simp only [matchY] at hs
    split at hs
    · rename_i a b c d
      simp only [List.all_cons, List.all_nil, Bool.and_eq_true, and_true] at hs
      obtain ⟨h1, h2, h3, h4⟩ := hs
      have hT : ¬((String.mk [a, b, c, d]).data.contains 'T' = true) := by
        simp only [List.contains_cons, List.contains_nil, Bool.or_eq_true, beq_iff_eq]
        push_neg
        exact ⟨ne_T_of_isDig h1, ne_T_of_isDig h2, ne_T_of_isDig h3, ne_T_of_isDig h4, by simp⟩
      have hymd : matchYMD (String.mk [a, b, c, d]) = false := by
        simp only [matchYMD]
      have hym : matchYM (String.mk [a, b, c, d]) = false := by
        simp only [matchYM]
      have hy : matchY (String.mk [a, b, c, d]) = true := by
        simp only [matchY]
        simp [h1, h2, h3, h4]
      constructor
      · rw [parseFlexibleDate, if_neg hT, if_neg (by rw [hymd]; simp),
          if_neg (by rw [hym]; simp), if_pos hy]
        simp
      · rw [parseFlexibleDate, if_neg hT, if_neg (by rw [hymd]; simp),
          if_neg (by rw [hym]; simp), if_pos hy]
        simp
    · exact absurd hs (by simp)

theorem claim_C6_flexible_dates_witness :
    (parseFlexibleDate "2025-06-15" false = "2025-06-15" ++ "T00:00:00.000Z" ∧
      parseFlexibleDate "2025-06-15" true = "2025-06-15" ++ "T23:59:59.999Z") ∧
    (parseFlexibleDate "2025-06" false = "2025-06" ++ "-01T00:00:00.000Z" ∧
      parseFlexibleDate "2025-06" true =
        "2025-06" ++ "-" ++ pad2 (jsMonthEndDay 2025 6) ++ "T23:59:59.999Z") ∧
    (parseFlexibleDate "2025" false = "2025" ++ "-01-01T00:00:00.000Z" ∧
      parseFlexibleDate "2025" true = "2025" ++ "-12-31T23:59:59.999Z") :=
  ⟨claim_C6_flexible_dates.1 "2025-06-15" (by decide),
   ⟨(claim_C6_flexible_dates.2.1 "2025-06" (by decide)).1,
    (claim_C6_flexible_dates.2.1 "2025-06" (by decide)).2 2025 6 (by decide)⟩,
   claim_C6_flexible_dates.2.2.1 "2025" (by decide)⟩

theorem isDateInRange_from_neutral (d f : String) (toOpt : Option String)
    (h : parseIsoToEpoch f = none) :
    isDateInRange d (some f) toOpt = isDateInRange d none toOpt := by
  simp only [isDateInRange, h]
  cases parseIsoToEpoch d <;> simp [jsLt]

theorem isDateInRange_to_neutral (d t : String) (fromOpt : Option String)
    (h : parseIsoToEpoch t = none) :
    isDateInRange d fromOpt (some t) = isDateInRange d fromOpt none := by
  simp only [isDateInRange, h]
  cases parseIsoToEpoch d <;> simp [jsLt]

theorem isDateInRange_none_none (d : String) : isDateInRange d none none = true := by
  simp [isDateInRange]

/-- Claim C10. A `from`/`to` bound that contains `'T'` passes through
`parseFlexibleDate` unvalidated; when such a bound does not parse to a valid
instant, both comparisons against the `NaN` bound are false, so
`isDateInRange` never excludes on that bound, and the date filter of search
and export is silently disabled for it (with the other predicates untouched:
the result equals a query with that bound absent; with no other bound, every
group passes). -/
theorem claim_C10_malformed_bound_disables_filter :
    (∀ (s : String) (b : Bool), s.data.contains 'T' = true →
      parseFlexibleDate s b = s) ∧
    (∀ (d f : String) (toOpt : Option String), parseIsoToEpoch f = none →
      isDateInRange d (some f) toOpt = isDateInRange d none toOpt) ∧
    (∀ (d t : String) (fromOpt : Option String), parseIsoToEpoch t = none →
      isDateInRange d fromOpt (some t) = isDateInRange d fromOpt none) ∧
    (∀ (re : RegexEngine) (m : MasterData) (o : SearchOptions) (s : String),
      o.fromOpt = some s → parseIsoToEpoch (parseFlexibleDate s false) = none →
      searchData re m o = searchData re m { o with fromOpt := none }) ∧
    (∀ (re : RegexEngine) (m : MasterData) (o : SearchOptions) (s : String),
      o.toOpt = some s → parseIsoToEpoch (parseFlexibleDate s true) = none →
      searchData re m o = searchData re m { o with toOpt := none }) ∧
    (∀ (groups : List TabGroup) (s : String),
      parseIsoToEpoch (parseFlexibleDate s false) = none →
      exportFilterGroups groups (some s) none = groups) := by
  refine ⟨?_, isDateInRange_from_neutral, isDateInRange_to_neutral, ?_, ?_, ?_⟩
  · intro s b h
    rw [parseFlexibleDate, if_pos h]
  · intro re m o s hfrom h
    unfold searchData
    rw [hfrom]
    simp only [Option.map]
    congr 1
    funext group
    rw [isDateInRange_from_neutral _ _ _ h]
    rfl
  · intro re m o s hto h
    unfold searchData
    rw [hto]
    simp only [Option.map]
    congr 1
    funext group
    rw [isDateInRange_to_neutral _ _ _ h]
    rfl
  · intro groups s h
    unfold exportFilterGroups
    simp only [Option.map]
    have : ∀ g : TabGroup,
        isDateInRange g.createdAt (some (parseFlexibleDate s false)) none = true := by
      intro g
      rw [isDateInRange_from_neutral _ _ _ h, isDateInRange_none_none]
    simp [this]

theorem claim_C10_malformed_bound_disables_filter_witness :
    parseFlexibleDate "garbageT" false = "garbageT" ∧
    isDateInRange "2025-06-15T12:00:00.000Z" (some "garbageT") none =
      isDateInRange "2025-06-15T12:00:00.000Z" none none ∧
    searchData reW10 mdW10 { query := some "x", fromOpt := some "garbageT" } =
      searchData reW10 mdW10
        { { query := some "x", fromOpt := some "garbageT" : SearchOptions } with
          fromOpt := none } ∧
    exportFilterGroups [groupW10] (some "garbageT") none = [groupW10] :=
  ⟨claim_C10_malformed_bound_disables_filter.1 "garbageT" false (by decide),
   claim_C10_malformed_bound_disables_filter.2.1
     "2025-06-15T12:00:00.000Z" "garbageT" none (by rfl),
   claim_C10_malformed_bound_disables_filter.2.2.2.1 reW10 mdW10
     { query := some "x", fromOpt := some "garbageT" } "garbageT" rfl (by rfl),
   claim_C10_malformed_bound_disables_filter.2.2.2.2.2 [groupW10] "garbageT" (by rfl)⟩

theorem matchesTab_title_neutral (re : RegexEngine) (tab : Tab) (o : SearchOptions)
    (p : String) (hp : o.titlePattern = some p) (hc : re.compile p = none) :
    matchesTab re tab o = matchesTab re tab { o with titlePattern := none } := by
  unfold matchesTab
  simp only [hp, hc]

theorem matchesTab_url_neutral (re : RegexEngine) (tab : Tab) (o : SearchOptions)
    (p : String) (hp : o.urlPattern = some p) (hc : re.compile p = none) :
    matchesTab re tab o = matchesTab re tab { o with urlPattern := none } := by
  unfold matchesTab
  simp only [hp, hc]

/-- Claim C8. When `titlePattern` or `urlPattern` is not a valid regular
expression, only that predicate is treated as never-matching: per-tab matching
and the whole search behave exactly as if that one pattern had not been
supplied — the query is not aborted, and the substring query, domain filter,
date range and the other pattern still apply. -/
theorem claim_C8_invalid_regex_neutralized :
    (∀ (re : RegexEngine) (tab : Tab) (o : SearchOptions) (p : String),
      o.titlePattern = some p → re.compile p = none →
      matchesTab re tab o = matchesTab re tab { o with titlePattern := none }) ∧
    (∀ (re : RegexEngine) (tab : Tab) (o : SearchOptions) (p : String),
      o.urlPattern = some p → re.compile p = none →
      matchesTab re tab o = matchesTab re tab { o with urlPattern := none }) ∧
    (∀ (re : RegexEngine) (m : MasterData) (o : SearchOptions) (p : String),
      o.titlePattern = some p → re.compile p = none →
      searchData re m o = searchData re m { o with titlePattern := none }) ∧
    (∀ (re : RegexEngine) (m : MasterData) (o : SearchOptions) (p : String),
      o.urlPattern = some p → re.compile p = none →
      searchData re m o = searchData re m { o with urlPattern := none }) := by
  refine ⟨matchesTab_title_neutral, matchesTab_url_neutral, ?_, ?_⟩
  · intro re m o p hp hc
    have hmt : ∀ tab, matchesTab re tab o = matchesTab re tab { o with titlePattern := none } :=
      fun tab => matchesTab_title_neutral re tab o p hp hc
    simp only [searchData, hmt]
  · intro re m o p hp hc
    have hmt : ∀ tab, matchesTab re tab o = matchesTab re tab { o with urlPattern := none } :=
      fun tab => matchesTab_url_neutral re tab o p hp hc
    simp only [searchData, hmt]

theorem claim_C8_invalid_regex_neutralized_witness :
    matchesTab reW8 tabW10 { query := some "git", titlePattern := some "[" } =
      matchesTab reW8 tabW10
        { { query := some "git", titlePattern := some "[" : SearchOptions } with
          titlePattern := none } ∧
    searchData reW8 mdW10 { query := some "git", titlePattern := some "[" } =
      searchData reW8 mdW10
        { { query := some "git", titlePattern := some "[" : SearchOptions } with
          titlePattern := none } :=
  ⟨claim_C8_invalid_regex_neutralized.1 reW8 tabW10
      { query := some "git", titlePattern := some "[" } "[" rfl (by rfl),
   claim_C8_invalid_regex_neutralized.2.2.1 reW8 mdW10
      { query := some "git", titlePattern := some "[" } "[" rfl (by rfl)⟩

/-- Claim C9. Every tab produced by normalization carries
`domain = extractDomain(url)`; when strict URL parsing succeeds the domain is
the URL's host lower-cased, and when it fails the derivation degrades to the
regex extraction (total, never an error). -/
theorem claim_C9_domain_extraction :
    (∀ (g : OneTabGroup) (t : Tab), t ∈ (transformGroup g).tabs →
      t.domain = extractDomain t.url) ∧
    (∀ (url raw : String), authorityHost url = some raw →
      extractDomain url = strToLower raw) ∧
    (∀ url : String, authorityHost url = none →
      extractDomain url = regexDomainFallback url) := by
  refine ⟨?_, ?_, ?_⟩
  · intro g t ht
    simp only [transformGroup, List.mem_map] at ht
    obtain ⟨tm, _, rfl⟩ := ht
    rfl
  · intro url raw h
    unfold extractDomain urlHostname
    rw [h]
    rfl
  · intro url h
    unfold extractDomain urlHostname
    rw [h]
    rfl

theorem claim_C9_domain_extraction_witness :
    ({ id := "t", url := "https://GitHub.com/x", title := "T9",
       domain := "github.com" : Tab }.domain =
      extractDomain "https://GitHub.com/x") ∧
    extractDomain "https://GitHub.com/x" = "github.com" ∧
    extractDomain "EXAMPLE.COM/path" = regexDomainFallback "EXAMPLE.COM/path" ∧
    regexDomainFallback "EXAMPLE.COM/path" = "EXAMPLE.COM" :=
  ⟨claim_C9_domain_extraction.1
      { id := "g"
        tabsMeta := [{ id := "t", url := "https://GitHub.com/x", title := "T9" }]
        createDate := 1700000000000, starred := none, title := none }
      { id := "t", url := "https://GitHub.com/x", title := "T9", domain := "github.com" }
      (by decide),
   (claim_C9_domain_extraction.2.1 "https://GitHub.com/x" "GitHub.com" (by rfl)).trans
     (by rfl),
   claim_C9_domain_extraction.2.2 "EXAMPLE.COM/path" (by rfl),
   by rfl⟩

theorem ceil_div_604800000 (num : Int) :
    ⌈(num : ℚ) / 604800000⌉ = (num + 604800000 - 1) / 604800000 := by
  have hfloor : ⌊((-num : Int) : ℚ) / ((604800000 : ℕ) : ℚ)⌋ =
      (-num) / ((604800000 : ℕ) : ℤ) :=
    Rat.floor_intCast_div_natCast (-num) 604800000
  have h2 : -((num : ℚ) / 604800000) = ((-num : Int) : ℚ) / ((604800000 : ℕ) : ℚ) := by
    push_cast
    ring
  have h3 : ⌈(num : ℚ) / 604800000⌉ = -⌊-((num : ℚ) / 604800000)⌋ := by
    rw [Int.floor_neg]
    simp
  rw [h3, h2, hfloor]
  have h4 : ((604800000 : ℕ) : ℤ) = (604800000 : ℤ) := by norm_num
  rw [h4]
  omega

theorem specWeekNumber_eq_code (t : Int) :
    specWeekNumber t =
      ((t - daysFromCivil (yearOfEpoch t) 1 1 * 86400000) +
        (((daysFromCivil (yearOfEpoch t) 1 1 + 4) % 7) + 1) * 86400000 +
        604800000 - 1) / 604800000 := by
  unfold specWeekNumber dayOfYearQ jan1Weekday
  rw [← ceil_div_604800000]
  congr 1
  push_cast
  field_simp
  ring

theorem getYearWeekOfEpoch_eq (t : Int) :
    getYearWeekOfEpoch t =
      toString (yearOfEpoch t) ++ "-W" ++ pad2 (specWeekNumber t) := by
  simp only [getYearWeekOfEpoch]
  rw [specWeekNumber_eq_code]

/-- Claim C7. The week bucket key of a `TabGroup`'s `createdAt` is
`<year>-W<ww>` where the week number is `ceil((dayOfYear + weekdayOfJan1 + 1)
/ 7)` zero-padded to two digits; in particular a group in week 1 gets the key
`<year>-W01`, and the week export path of a period key is
`<outputDir>/<year>/<key>.md`, so that file lands at
`<year>/<year>-W01.md`. -/
theorem claim_C7_week_bucket :
    (∀ (iso : String) (t : Int), parseIsoToEpoch iso = some t →
      getYearWeek iso = toString (yearOfEpoch t) ++ "-W" ++ pad2 (specWeekNumber t)) ∧
    (∀ (iso : String) (t : Int), parseIsoToEpoch iso = some t →
      specWeekNumber t = 1 →
      getYearWeek iso = toString (yearOfEpoch t) ++ "-W01") ∧
    (∀ (outputDir periodKey : String),
      getOutputPath outputDir periodKey Granularity.week =
        joinPath (joinPath outputDir (substr4 periodKey)) (periodKey ++ ".md")) ∧
    (∀ (iso : String) (t : Int) (outputDir : String), parseIsoToEpoch iso = some t →
      specWeekNumber t = 1 → (toString (yearOfEpoch t)).length = 4 →
      getOutputPath outputDir (getYearWeek iso) Granularity.week =
        joinPath (joinPath outputDir (toString (yearOfEpoch t)))
          (toString (yearOfEpoch t) ++ "-W01" ++ ".md")) := by
  have key1 : ∀ (iso : String) (t : Int), parseIsoToEpoch iso = some t →
      getYearWeek iso = toString (yearOfEpoch t) ++ "-W" ++ pad2 (specWeekNumber t) := by
    intro iso t h
    unfold getYearWeek
    rw [h]
    exact getYearWeekOfEpoch_eq t
  have key2 : ∀ (iso : String) (t : Int), parseIsoToEpoch iso = some t →
      specWeekNumber t = 1 →
      getYearWeek iso = toString (yearOfEpoch t) ++ "-W01" := by
    intro iso t h h1
    rw [key1 iso t h, h1]
    rw [String.append_assoc]
    rfl
  refine ⟨key1, key2, fun outputDir periodKey => rfl, ?_⟩
  intro iso t outputDir h h1 hlen
  rw [key2 iso t h h1]
  show joinPath (joinPath outputDir (substr4 (toString (yearOfEpoch t) ++ "-W01")))
    ((toString (yearOfEpoch t) ++ "-W01") ++ ".md") = _
  have hlen2 : (toString (yearOfEpoch t)).data.length = 4 := hlen
  have hsub : substr4 (toString (yearOfEpoch t) ++ "-W01") = toString (yearOfEpoch t) := by
    unfold substr4
    rw [String.data_append]
    rw [List.take_left' hlen2]
  rw [hsub, String.append_assoc]

theorem claim_C7_week_bucket_witness :
    getYearWeek "2025-01-02T10:00:00.000Z" =
      toString (yearOfEpoch 1735812000000) ++ "-W01" ∧
    getOutputPath "out" (getYearWeek "2025-01-02T10:00:00.000Z") Granularity.week =
      joinPath (joinPath "out" (toString (yearOfEpoch 1735812000000)))
        (toString (yearOfEpoch 1735812000000) ++ "-W01" ++ ".md") := by
  have ht : parseIsoToEpoch "2025-01-02T10:00:00.000Z" = some 1735812000000 := by decide
  have hweek : specWeekNumber 1735812000000 = 1 := by
    rw [specWeekNumber_eq_code]
    decide
  have hlen : (toString (yearOfEpoch 1735812000000)).length = 4 := by decide
  exact ⟨claim_C7_week_bucket.2.1 _ _ ht hweek,
    claim_C7_week_bucket.2.2.2 _ _ "out" ht hweek hlen⟩

/-! ### Field-access lemmas for the JSON object model -/

theorem getField_some_obj {data : JValue} {k : String} {v : JValue}
    (h : getField data k = some v) : ∃ fs, data = .obj fs := by
  cases data <;> simp [getField] at h ⊢

theorem lookup_replace_self (k : String) (v : JValue) :
    ∀ (L : List (String × JValue)), L.any (fun p => p.1 == k) = true →
      (L.map (fun p => if p.1 == k then (k, v) else p)).lookup k = some v := by
  intro L
  induction L with
  | nil => simp
  | cons a t ih =>
    obtain ⟨a1, a2⟩ := a
    intro h
    rw [List.map_cons]
    dsimp only
    by_cases hak : a1 = k
    · rw [if_pos (beq_iff_eq.mpr hak)]
      simp [List.lookup_cons]
    · have hb : (a1 == k) = false := beq_eq_false_iff_ne.mpr hak
      have hb2 : (k == a1) = false := beq_eq_false_iff_ne.mpr (Ne.symm hak)
      rw [if_neg (by simp [hb])]
      simp only [List.lookup_cons, hb2]
      simp only [List.any_cons, Bool.or_eq_true] at h
      rcases h with h | h
      · rw [show ((a1, a2).1 == k) = false from hb] at h
        exact absurd h (by simp)
      · exact ih h

theorem lookup_append_self (k : String) (v : JValue) :
    ∀ (L : List (String × JValue)), L.any (fun p => p.1 == k) = false →
      (L ++ [(k, v)]).lookup k = some v := by
  intro L
  induction L with
  | nil => simp [List.lookup_cons]
  | cons a t ih =>
    obtain ⟨a1, a2⟩ := a
    intro h
    simp only [List.any_cons, Bool.or_eq_false_iff] at h
    have hak : ¬(a1 = k) := by
      intro he
      have := h.1
      rw [show ((a1, a2).1 == k) = (a1 == k) from rfl, beq_iff_eq.mpr he] at this
      exact absurd this (by simp)
    have hb2 : (k == a1) = false := beq_eq_false_iff_ne.mpr (Ne.symm hak)
    rw [List.cons_append]
    simp only [List.lookup_cons, hb2]
    exact ih h.2

theorem getField_setField_self (fs : List (String × JValue)) (k : String) (v : JValue) :
    getField (setField (.obj fs) k v) k = some v := by
  simp only [setField, getField]
  by_cases h : fs.any (fun p => p.1 == k) = true
  · rw [if_pos h]
    exact lookup_replace_self k v fs h
  · rw [if_neg h]
    refine lookup_append_self k v fs ?_
    cases hx : fs.any (fun p => p.1 == k)
    · rfl
    · exact absurd hx h

theorem lookup_replace_ne (k k2 : String) (v : JValue) (hne : ¬(k2 = k)) :
    ∀ (L : List (String × JValue)),
      (L.map (fun p => if p.1 == k then (k, v) else p)).lookup k2 = L.lookup k2 := by
  have hb : (k2 == k) = false := beq_eq_false_iff_ne.mpr hne
  intro L
  induction L with
  | nil => rfl
  | cons a t ih =>
    obtain ⟨a1, a2⟩ := a
    rw [List.map_cons]
    dsimp only
    by_cases hak : a1 = k
    · rw [if_pos (beq_iff_eq.mpr hak)]
      have hk2a : (k2 == a1) = false := by rw [hak]; exact hb
      simp only [List.lookup_cons, hb, hk2a]
      exact ih
    · rw [if_neg (by simp [beq_eq_false_iff_ne.mpr hak])]
      cases hk : k2 == a1 with
      | false =>
        simp only [List.lookup_cons, hk]
        exact ih
      | true =>
        simp only [List.lookup_cons, hk]

theorem lookup_append_ne (k k2 : String) (v : JValue) (hne : ¬(k2 = k)) :
    ∀ (L : List (String × JValue)), (L ++ [(k, v)]).lookup k2 = L.lookup k2 := by
  have hb : (k2 == k) = false := beq_eq_false_iff_ne.mpr hne
  intro L
  induction L with
  | nil => simp [List.lookup_cons, hb]
  | cons a t ih =>
    obtain ⟨a1, a2⟩ := a
    rw [List.cons_append]
    cases hk : k2 == a1 with
    | false =>
      simp only [List.lookup_cons, hk]
      exact ih
    | true =>
      simp only [List.lookup_cons, hk]

theorem getField_setField_ne (fs : List (String × JValue)) (k k2 : String) (v : JValue)
    (hne : ¬(k2 = k)) :
    getField (setField (.obj fs) k v) k2 = getField (.obj fs) k2 := by
  simp only [setField, getField]
  by_cases h : fs.any (fun p => p.1 == k) = true
  · rw [if_pos h]
    exact lookup_replace_ne k k2 v hne fs
  · rw [if_neg h]
    exact lookup_append_ne k k2 v hne fs

/-! ### Unfolding lemmas for the staged `validateOneTabExport` -/

theorem validate_eq_of_objLike {data : JValue} (h : isObjLike data = true) :
    validateOneTabExport data =
      (match decodeStateString data with
       | .error e => .error e
       | .ok obj => afterStateDecode obj) := by
  unfold validateOneTabExport
  rw [h]
  rfl

theorem decodeState_ok_of_not_str {data : JValue} {v : JValue}
    (h : getField data "state" = some v) (hv : ∀ t, v ≠ .str t) :
    decodeStateString data = .ok data := by
  unfold decodeStateString
  simp only [h]
  cases v with
  | str s => exact absurd rfl (hv s)
  | null => rfl
  | bool b => rfl
  | num n => rfl
  | arr l => rfl
  | obj fs2 => rfl

theorem decodeState_ok_of_none {data : JValue} (h : getField data "state" = none) :
    decodeStateString data = .ok data := by
  unfold decodeStateString
  simp only [h]

theorem decodeState_decoded {data : JValue} {s : String} {v : JValue}
    (h : getField data "state" = some (.str s)) (hp : jsonParse s = some v) :
    decodeStateString data = .ok (setField data "state" v) := by
  unfold decodeStateString
  simp only [h, hp]

theorem decodeState_parse_fail {data : JValue} {s : String}
    (h : getField data "state" = some (.str s)) (hp : jsonParse s = none) :
    decodeStateString data =
      .error "Invalid OneTab export: state is a string but not valid JSON" := by
  unfold decodeStateString
  simp only [h, hp]

theorem afterStateDecode_state_branch {data st : JValue}
    (h1 : getField data "state" = some st) (hobj : isObjLike st = true) :
    afterStateDecode data =
      (match stateBranch st with
       | .error e => .error e
       | .ok (some gs) => .ok gs
       | .ok none => afterState data) := by
  unfold afterStateDecode
  simp only [h1]
  rw [if_pos hobj]

theorem afterStateDecode_no_state {data : JValue}
    (h1 : getField data "state" = none) :
    afterStateDecode data = afterState data := by
  unfold afterStateDecode
  simp only [h1]

theorem stateBranch_decoded {st : JValue} {s : String} {v : JValue}
    (h2 : getField st "tabGroups" = some (.str s)) (h3 : jsonParse s = some v) :
    stateBranch st = stateTabGroupsCheck (setField st "tabGroups" v) := by
  unfold stateBranch
  simp only [h2, h3]

theorem stateBranch_parse_fail {st : JValue} {s : String}
    (h2 : getField st "tabGroups" = some (.str s)) (h3 : jsonParse s = none) :
    stateBranch st =
      .error "Invalid OneTab export: tabGroups is a string but not valid JSON" := by
  unfold stateBranch
  simp only [h2, h3]

theorem stateBranch_not_str {st : JValue} {v : JValue}
    (h2 : getField st "tabGroups" = some v) (hv : ∀ t, v ≠ .str t) :
    stateBranch st = stateTabGroupsCheck st := by
  unfold stateBranch
  simp only [h2]
  cases v with
  | str s => exact absurd rfl (hv s)
  | null => rfl
  | bool b => rfl
  | num n => rfl
  | arr l => rfl
  | obj fs2 => rfl

theorem afterState_decoded {obj : JValue} {s : String} {v : JValue}
    (h : getField obj "tabGroups" = some (.str s)) (hp : jsonParse s = some v) :
    afterState obj = topTabGroupsCheck (setField obj "tabGroups" v) := by
  unfold afterState
  simp only [h, hp]

theorem afterState_parse_fail {obj : JValue} {s : String}
    (h : getField obj "tabGroups" = some (.str s)) (hp : jsonParse s = none) :
    afterState obj =
      .error "Invalid OneTab export: tabGroups is a string but not valid JSON" := by
  unfold afterState
  simp only [h, hp]

theorem afterState_not_str {obj : JValue} {v : JValue}
    (h : getField obj "tabGroups" = some v) (hv : ∀ t, v ≠ .str t) :
    afterState obj = topTabGroupsCheck obj := by
  unfold afterState
  simp only [h]
  cases v with
  | str s => exact absurd rfl (hv s)
  | null => rfl
  | bool b => rfl
  | num n => rfl
  | arr l => rfl
  | obj fs2 => rfl

theorem afterState_none {obj : JValue} (h : getField obj "tabGroups" = none) :
    afterState obj = topTabGroupsCheck obj := by
  unfold afterState
  simp only [h]

theorem topTabGroupsCheck_congr {a b : JValue}
    (h : getField a "tabGroups" = getField b "tabGroups") :
    topTabGroupsCheck a = topTabGroupsCheck b := by
  unfold topTabGroupsCheck
  rw [h]

theorem afterState_congr {a b : JValue} (ha : ∃ fs, a = .obj fs)
    (hb : ∃ fs, b = .obj fs)
    (h : getField a "tabGroups" = getField b "tabGroups") :
    afterState a = afterState b := by
  obtain ⟨fa, rfl⟩ := ha
  obtain ⟨fb, rfl⟩ := hb
  cases hg : getField (JValue.obj fb) "tabGroups" with
  | none =>
    rw [afterState_none (h.trans hg), afterState_none hg]
    exact topTabGroupsCheck_congr h
  | some v =>
    cases v with
    | str s =>
      cases hp : jsonParse s with
      | none => rw [afterState_parse_fail (h.trans hg) hp, afterState_parse_fail hg hp]
      | some pv =>
        rw [afterState_decoded (h.trans hg) hp, afterState_decoded hg hp]
        exact topTabGroupsCheck_congr (by
          rw [getField_setField_self, getField_setField_self])
    | null =>
      rw [afterState_not_str (h.trans hg) (by intro t ht; cases ht),
        afterState_not_str hg (by intro t ht; cases ht)]
      exact topTabGroupsCheck_congr h
    | bool b2 =>
      rw [afterState_not_str (h.trans hg) (by intro t ht; cases ht),
        afterState_not_str hg (by intro t ht; cases ht)]
      exact topTabGroupsCheck_congr h
    | num n =>
      rw [afterState_not_str (h.trans hg) (by intro t ht; cases ht),
        afterState_not_str hg (by intro t ht; cases ht)]
      exact topTabGroupsCheck_congr h
    | arr l =>
      rw [afterState_not_str (h.trans hg) (by intro t ht; cases ht),
        afterState_not_str hg (by intro t ht; cases ht)]
      exact topTabGroupsCheck_congr h
    | obj fs2 =>
      rw [afterState_not_str (h.trans hg) (by intro t ht; cases ht),
        afterState_not_str hg (by intro t ht; cases ht)]
      exact topTabGroupsCheck_congr h

theorem not_str_of_objLike {st : JValue} (h : isObjLike st = true) :
    ∀ t, st ≠ .str t := by
  intro t ht
  subst ht
  simp [isObjLike] at h

theorem validate_eq_ok {data obj : JValue} (hd : decodeStateString data = .ok obj)
    (h : isObjLike data = true) :
    validateOneTabExport data = afterStateDecode obj := by
  rw [validate_eq_of_objLike h, hd]

theorem validate_eq_err {data : JValue} {e : String}
    (hd : decodeStateString data = .error e) (h : isObjLike data = true) :
    validateOneTabExport data = .error e := by
  rw [validate_eq_of_objLike h, hd]

/-- Claim C4. `validateOneTabExport` handles double-encoded payloads: a `state`
or `tabGroups` field supplied as a JSON-encoded string is detected at each of
the two levels, re-parsed, and yields exactly the same result as the
unencoded payload; a string at either level that fails to JSON-parse is a
fatal error whose message names the unparsable field (`state` or
`tabGroups`). -/
theorem claim_C4_double_encoding :
    (∀ (data : JValue) (s : String) (v : JValue),
      getField data "state" = some (.str s) → jsonParse s = some v →
      (∀ t, v ≠ .str t) →
      validateOneTabExport data = validateOneTabExport (setField data "state" v)) ∧
    (∀ (data st : JValue) (s : String) (v : JValue),
      getField data "state" = some st → isObjLike st = true →
      getField st "tabGroups" = some (.str s) → jsonParse s = some v →
      (∀ t, v ≠ .str t) →
      validateOneTabExport data =
        validateOneTabExport (setField data "state" (setField st "tabGroups" v))) ∧
    (∀ (data : JValue) (s : String) (v : JValue),
      getField data "state" = none → getField data "tabGroups" = some (.str s) →
      jsonParse s = some v → (∀ t, v ≠ .str t) →
      validateOneTabExport data = validateOneTabExport (setField data "tabGroups" v)) ∧
    (∀ (data : JValue) (s : String),
      getField data "state" = some (.str s) → jsonParse s = none →
      validateOneTabExport data =
        .error "Invalid OneTab export: state is a string but not valid JSON") ∧
    (∀ (data st : JValue) (s : String),
      getField data "state" = some st → isObjLike st = true →
      getField st "tabGroups" = some (.str s) → jsonParse s = none →
      validateOneTabExport data =
        .error "Invalid OneTab export: tabGroups is a string but not valid JSON") ∧
    (∀ (data : JValue) (s : String),
      isObjLike data = true →
      getField data "state" = none → getField data "tabGroups" = some (.str s) →
      jsonParse s = none →
      validateOneTabExport data =
        .error "Invalid OneTab export: tabGroups is a string but not valid JSON") := by
  refine ⟨?_, ?_, ?_, ?_, ?_, ?_⟩
  · intro data s v h1 h2 hv
    obtain ⟨fs, rfl⟩ := getField_some_obj h1
    rw [validate_eq_ok (decodeState_decoded h1 h2) rfl,
      validate_eq_ok
        (decodeState_ok_of_not_str (getField_setField_self fs "state" v) hv) rfl]
  · intro data st s v h1 hobj h2 h3 hv
    obtain ⟨fs, rfl⟩ := getField_some_obj h1
    obtain ⟨sfs, rfl⟩ := getField_some_obj h2
    have hne : ¬("tabGroups" = "state") := by decide
    rw [validate_eq_ok (decodeState_ok_of_not_str h1 (not_str_of_objLike hobj)) rfl,
      validate_eq_ok
        (decodeState_ok_of_not_str
          (getField_setField_self fs "state" (setField (JValue.obj sfs) "tabGroups" v))
          (not_str_of_objLike rfl)) rfl,
      afterStateDecode_state_branch h1 hobj,
      afterStateDecode_state_branch
        (getField_setField_self fs "state" (setField (JValue.obj sfs) "tabGroups" v)) rfl,
      stateBranch_decoded h2 h3,
      stateBranch_not_str (getField_setField_self sfs "tabGroups" v) hv]
    cases hc : stateTabGroupsCheck (setField (JValue.obj sfs) "tabGroups" v) with
    | error e => rfl
    | ok o =>
      cases o with
      | some gs => rfl
      | none =>
        exact afterState_congr ⟨fs, rfl⟩ ⟨_, rfl⟩
          (getField_setField_ne fs "state" "tabGroups"
            (setField (JValue.obj sfs) "tabGroups" v) hne).symm
  · intro data s v h0 h1 h2 hv
    obtain ⟨fs, rfl⟩ := getField_some_obj h1
    have hne : ¬("state" = "tabGroups") := by decide
    have h0b : getField (setField (JValue.obj fs) "tabGroups" v) "state" = none := by
      rw [getField_setField_ne fs "tabGroups" "state" v hne]
      exact h0
    rw [validate_eq_ok (decodeState_ok_of_none h0) rfl,
      validate_eq_ok (decodeState_ok_of_none h0b) rfl,
      afterStateDecode_no_state h0, afterStateDecode_no_state h0b,
      afterState_decoded h1 h2,
      afterState_not_str (getField_setField_self fs "tabGroups" v) hv]
  · intro data s h1 h2
    obtain ⟨fs, rfl⟩ := getField_some_obj h1
    exact validate_eq_err (decodeState_parse_fail h1 h2) rfl
  · intro data st s h1 hobj h2 h3
    obtain ⟨fs, rfl⟩ := getField_some_obj h1
    rw [validate_eq_ok (decodeState_ok_of_not_str h1 (not_str_of_objLike hobj)) rfl,
      afterStateDecode_state_branch h1 hobj,
      stateBranch_parse_fail h2 h3]
  · intro data s hobj h0 h1 h2
    rw [validate_eq_ok (decodeState_ok_of_none h0) hobj,
      afterStateDecode_no_state h0, afterState_parse_fail h1 h2]

theorem claim_C4_double_encoding_witness :
    -- the spec fixture: state itself a JSON string whose tabGroups is again a
    -- JSON string; decoding the outer level gives the same result as the
    -- payload with the parsed state object
    (validateOneTabExport
        (.obj [("state", .str
          "\x7b\"tabGroups\":\"[\x7b\\\"id\\\":\\\"a\\\",\\\"createDate\\\":1700000000000,\\\"tabsMeta\\\":[]\x7d]\"\x7d")]) =
      validateOneTabExport
        (setField
          (.obj [("state", .str
            "\x7b\"tabGroups\":\"[\x7b\\\"id\\\":\\\"a\\\",\\\"createDate\\\":1700000000000,\\\"tabsMeta\\\":[]\x7d]\"\x7d")])
          "state"
          (.obj [("tabGroups", .str
            "[\x7b\"id\":\"a\",\"createDate\":1700000000000,\"tabsMeta\":[]\x7d]")]))) ∧
    -- decoding the inner (state.tabGroups) level
    (validateOneTabExport
        (.obj [("state", .obj [("tabGroups", .str
          "[\x7b\"id\":\"a\",\"createDate\":1700000000000,\"tabsMeta\":[]\x7d]")])]) =
      validateOneTabExport
        (setField
          (.obj [("state", .obj [("tabGroups", .str
            "[\x7b\"id\":\"a\",\"createDate\":1700000000000,\"tabsMeta\":[]\x7d]")])])
          "state"
          (setField
            (.obj [("tabGroups", .str
              "[\x7b\"id\":\"a\",\"createDate\":1700000000000,\"tabsMeta\":[]\x7d]")])
            "tabGroups"
            (.arr [.obj [("id", .str "a"), ("createDate", .num 1700000000000),
                         ("tabsMeta", .arr [])]])))) ∧
    -- decoding a double-encoded top-level tabGroups
    (validateOneTabExport (.obj [("tabGroups", .str "[]")]) =
      validateOneTabExport (setField (.obj [("tabGroups", .str "[]")]) "tabGroups" (.arr []))) ∧
    -- unparsable state string: fatal, names `state`
    (validateOneTabExport (.obj [("state", .str "not json")]) =
      .error "Invalid OneTab export: state is a string but not valid JSON") ∧
    -- unparsable state.tabGroups string: fatal, names `tabGroups`
    (validateOneTabExport (.obj [("state", .obj [("tabGroups", .str "not json")])]) =
      .error "Invalid OneTab export: tabGroups is a string but not valid JSON") ∧
    -- unparsable top-level tabGroups string: fatal, names `tabGroups`
    (validateOneTabExport (.obj [("tabGroups", .str "not json")]) =
      .error "Invalid OneTab export: tabGroups is a string but not valid JSON") :=
  ⟨claim_C4_double_encoding.1 _ _ _ rfl (by rfl) (fun t h => by cases h),
   claim_C4_double_encoding.2.1 _ _ _ _ rfl rfl rfl (by rfl) (fun t h => by cases h),
   claim_C4_double_encoding.2.2.1 _ _ _ rfl rfl (by rfl) (fun t h => by cases h),
   claim_C4_double_encoding.2.2.2.1 _ _ rfl (by rfl),
   claim_C4_double_encoding.2.2.2.2.1 _ _ _ rfl rfl rfl (by rfl),
   claim_C4_double_encoding.2.2.2.2.2 _ _ rfl rfl rfl (by rfl)⟩

theorem isStrField_iff (v : JValue) (k : String) :
    isStrField v k = true ↔ ∃ s, getField v k = some (.str s) := by
  unfold isStrField
  cases h : getField v k with
  | none => simp
  | some w => cases w <;> simp

theorem isValidGroup_iff (v : JValue) :
    isValidGroup v = true ↔
      (∃ s, getField v "id" = some (.str s)) ∧
      (∃ n, getField v "createDate" = some (.num n)) ∧
      (∃ ts, getField v "tabsMeta" = some (.arr ts) ∧
        ∀ t ∈ ts,
          (∃ s, getField t "id" = some (.str s)) ∧
          (∃ s, getField t "url" = some (.str s)) ∧
          (∃ s, getField t "title" = some (.str s))) := by
  unfold isValidGroup
  simp only [Bool.and_eq_true, isStrField_iff]
  constructor
  · rintro ⟨⟨hid, hnum⟩, hts⟩
    refine ⟨hid, ?_, ?_⟩
    · revert hnum
      cases h : getField v "createDate" with
      | none => simp
      | some w => cases w <;> simp
    · revert hts
      cases h : getField v "tabsMeta" with
      | none => simp
      | some w =>
        cases w <;> simp
        intro hall t ht
        have := hall t ht
        rw [isValidTab, Bool.and_eq_true, Bool.and_eq_true] at this
        exact ⟨(isStrField_iff t "id").mp this.1.1,
          (isStrField_iff t "url").mp this.1.2,
          (isStrField_iff t "title").mp this.2⟩
  · rintro ⟨hid, ⟨n, hnum⟩, ⟨ts, hts, hall⟩⟩
    refine ⟨⟨hid, ?_⟩, ?_⟩
    · rw [hnum]
    · simp only [hts, List.all_eq_true]
      intro t ht
      rw [isValidTab, Bool.and_eq_true, Bool.and_eq_true]
      obtain ⟨h1, h2, h3⟩ := hall t ht
      exact ⟨⟨(isStrField_iff t "id").mpr h1, (isStrField_iff t "url").mpr h2⟩,
        (isStrField_iff t "title").mpr h3⟩

theorem stateTabGroupsCheck_invalid {st : JValue} {l : List JValue}
    (h : getField st "tabGroups" = some (.arr l)) (hbad : l.all isValidGroup = false) :
    stateTabGroupsCheck st =
      .error "Invalid OneTab export: tabGroups contains invalid entries" := by
  unfold stateTabGroupsCheck
  simp only [h, hbad]
  rfl

theorem topTabGroupsCheck_invalid {obj : JValue} {l : List JValue}
    (h : getField obj "tabGroups" = some (.arr l)) (hbad : l.all isValidGroup = false) :
    topTabGroupsCheck obj =
      .error "Invalid OneTab export: tabGroups contains invalid entries" := by
  unfold topTabGroupsCheck
  simp only [h, hbad]
  rfl

theorem topTabGroupsCheck_ok {obj : JValue} {gs : List JValue}
    (h : topTabGroupsCheck obj = .ok gs) : gs.all isValidGroup = true := by
  unfold topTabGroupsCheck at h
  split at h
  · split at h
    · rename_i hall
      cases h
      assumption
    · cases h
  · cases h

theorem stateTabGroupsCheck_ok {st : JValue} {gs : List JValue}
    (h : stateTabGroupsCheck st = .ok (some gs)) : gs.all isValidGroup = true := by
  unfold stateTabGroupsCheck at h
  split at h
  · split at h
    · rename_i hall
      cases h
      assumption
    · cases h
  · cases h

theorem afterState_ok {obj : JValue} {gs : List JValue}
    (h : afterState obj = .ok gs) : gs.all isValidGroup = true := by
  unfold afterState at h
  split at h
  · rename_i s hs
    split at h
    · exact topTabGroupsCheck_ok h
    · cases h
  · exact topTabGroupsCheck_ok h

theorem stateBranch_ok {st : JValue} {gs : List JValue}
    (h : stateBranch st = .ok (some gs)) : gs.all isValidGroup = true := by
  unfold stateBranch at h
  split at h
  · split at h
    · exact stateTabGroupsCheck_ok h
    · cases h
  · exact stateTabGroupsCheck_ok h

theorem afterStateDecode_ok {obj : JValue} {gs : List JValue}
    (h : afterStateDecode obj = .ok gs) : gs.all isValidGroup = true := by
  unfold afterStateDecode at h
  split at h
  · split at h
    · rename_i hbr
      split at h
      · cases h
      · rename_i gs2 hgs2
        cases h
        exact stateBranch_ok hgs2
      · exact afterState_ok h
    · exact afterState_ok h
  · exact afterState_ok h

theorem validate_ok_all_valid {data : JValue} {gs : List JValue}
    (h : validateOneTabExport data = .ok gs) : gs.all isValidGroup = true := by
  unfold validateOneTabExport at h
  split at h
  · cases h
  · split at h
    · cases h
    · exact afterStateDecode_ok h

/-- Claim C5. Validation is all-or-nothing: `validateOneTabExport` only ever
returns batches every member of which passes `isValidGroup` (a string `id`, a
numeric `createDate`, and a `tabsMeta` array whose every element has string
`id`, `url`, `title`); as soon as the recognized batch contains one invalid
record the whole call fails with the batch-level error and no groups are
returned. -/
theorem claim_C5_all_or_nothing :
    (∀ v : JValue, isValidGroup v = true ↔
      (∃ s, getField v "id" = some (.str s)) ∧
      (∃ n, getField v "createDate" = some (.num n)) ∧
      (∃ ts, getField v "tabsMeta" = some (.arr ts) ∧
        ∀ t ∈ ts,
          (∃ s, getField t "id" = some (.str s)) ∧
          (∃ s, getField t "url" = some (.str s)) ∧
          (∃ s, getField t "title" = some (.str s)))) ∧
    (∀ (data : JValue) (gs : List JValue),
      validateOneTabExport data = .ok gs → gs.all isValidGroup = true) ∧
    (∀ (data st : JValue) (l : List JValue),
      getField data "state" = some st → isObjLike st = true →
      getField st "tabGroups" = some (.arr l) → l.all isValidGroup = false →
      validateOneTabExport data =
        .error "Invalid OneTab export: tabGroups contains invalid entries") ∧
    (∀ (data : JValue) (l : List JValue),
      isObjLike data = true → getField data "state" = none →
      getField data "tabGroups" = some (.arr l) → l.all isValidGroup = false →
      validateOneTabExport data =
        .error "Invalid OneTab export: tabGroups contains invalid entries") := by
  refine ⟨isValidGroup_iff, fun data gs h => validate_ok_all_valid h, ?_, ?_⟩
  · intro data st l h1 hobj h2 hbad
    obtain ⟨fs, rfl⟩ := getField_some_obj h1
    rw [validate_eq_ok (decodeState_ok_of_not_str h1 (not_str_of_objLike hobj)) rfl,
      afterStateDecode_state_branch h1 hobj,
      stateBranch_not_str h2 (fun t ht => by cases ht),
      stateTabGroupsCheck_invalid h2 hbad]
  · intro data l hobj h0 h1 hbad
    rw [validate_eq_ok (decodeState_ok_of_none h0) hobj,
      afterStateDecode_no_state h0,
      afterState_not_str h1 (fun t ht => by cases ht),
      topTabGroupsCheck_invalid h1 hbad]

theorem claim_C5_all_or_nothing_witness :
    (isValidGroup (.obj [("id", .str "a"), ("createDate", .num 5),
        ("tabsMeta", .arr [])]) = true) ∧
    (validateOneTabExport (.obj [("tabGroups", .arr [])]) = .ok [] →
      ([] : List JValue).all isValidGroup = true) ∧
    validateOneTabExport
        (.obj [("state", .obj [("tabGroups",
          .arr [.obj [("id", .str "a"), ("createDate", .num 5), ("tabsMeta", .arr [])],
                badGroupW])])]) =
      .error "Invalid OneTab export: tabGroups contains invalid entries" ∧
    validateOneTabExport (.obj [("tabGroups", .arr [badGroupW])]) =
      .error "Invalid OneTab export: tabGroups contains invalid entries" :=
  ⟨(claim_C5_all_or_nothing.1 _).mpr
      ⟨⟨"a", rfl⟩, ⟨5, rfl⟩, ⟨[], rfl, by intro t ht; cases ht⟩⟩,
   fun h => claim_C5_all_or_nothing.2.1 _ [] h,
   claim_C5_all_or_nothing.2.2.1 _ _ _ rfl rfl rfl (by rfl),
   claim_C5_all_or_nothing.2.2.2 _ _ rfl rfl rfl (by rfl)⟩

end OneTab
